import Mathlib

/-!
# NeuSort task tracker: analytics rollups, derived metrics and the paged TTL cache

A shallow embedding of

* `server/controllers/analyticsController.js` (`getTeamPerformance`, `getTaskStatistics`),
* `src/contexts/AnalyticsContext.js` (`fetchAnalytics`, `calculateTeamEfficiency`,
  `calculateProjection`),
* `src/hooks/useTaskData.js` (`getCacheKey`, `getFromCache`, `setCache`, `loadTasks`,
  `updateTask`, `nextPage`, `prevPage`),

followed by the properties established about them.

Conventions.  Instants are integers (milliseconds since the epoch).  A JavaScript number is a
`JSNum`: an exact rational, or one of `NaN`, `+Infinity`, `-Infinity`; the rounding of doubles
is idealised away and there is a single zero, so the arithmetic agrees with JavaScript on
operands that are not negative zeros.  SQL fragments are read with their typed meaning
(`BETWEEN` is inclusive, `GREATEST`/`LEAST` are max/min of instants).
-/

namespace NeuSort

/-! ## JavaScript numbers -/

/-- A JavaScript number: a finite value or one of the three special values. -/
inductive JSNum where
  | fin (q : ℚ)
  | posInf
  | negInf
  | nan
  deriving DecidableEq

namespace JSNum

/-- The JavaScript `/` on numbers. -/
def div : JSNum → JSNum → JSNum
  | fin a, fin b =>
      if b = 0 then (if a = 0 then nan else if 0 < a then posInf else negInf) else fin (a / b)
  | fin _, posInf => fin 0
  | fin _, negInf => fin 0
  | posInf, fin b => if 0 ≤ b then posInf else negInf
  | negInf, fin b => if 0 ≤ b then negInf else posInf
  | _, _ => nan

/-- The JavaScript `+` on numbers. -/
def add : JSNum → JSNum → JSNum
  | fin a, fin b => fin (a + b)
  | nan, _ => nan
  | _, nan => nan
  | posInf, negInf => nan
  | negInf, posInf => nan
  | posInf, _ => posInf
  | _, posInf => posInf
  | negInf, _ => negInf
  | _, negInf => negInf

/-- The JavaScript `-` on numbers. -/
def sub : JSNum → JSNum → JSNum
  | fin a, fin b => fin (a - b)
  | nan, _ => nan
  | _, nan => nan
  | posInf, posInf => nan
  | negInf, negInf => nan
  | posInf, _ => posInf
  | _, negInf => posInf
  | negInf, _ => negInf
  | _, posInf => negInf

/-- The JavaScript `<` on numbers: false as soon as one side is `NaN`. -/
def lt : JSNum → JSNum → Bool
  | fin a, fin b => decide (a < b)
  | fin _, posInf => true
  | negInf, fin _ => true
  | negInf, posInf => true
  | _, _ => false

/-- The truthiness of a number: `0` and `NaN` are falsy. -/
def truthy : JSNum → Bool
  | fin q => decide (q ≠ 0)
  | nan => false
  | _ => true

/-- The expression `x || d` on numbers. -/
def orElse (x d : JSNum) : JSNum := if x.truthy then x else d

/-- The value `Math.max(x, y)`: `NaN` as soon as one side is `NaN`. -/
def max : JSNum → JSNum → JSNum
  | nan, _ => nan
  | _, nan => nan
  | posInf, _ => posInf
  | _, posInf => posInf
  | negInf, y => y
  | x, negInf => x
  | fin a, fin b => fin (if a ≤ b then b else a)

/-- Whether the number is finite (neither `NaN` nor an infinity). -/
def isFinite : JSNum → Bool
  | fin _ => true
  | _ => false

end JSNum

/-! ## Server: the task store and the team-performance aggregation -/

/-- The `status` column of a task. -/
inductive Status where
  | pending
  | in_progress
  | completed
  | cancelled
  deriving DecidableEq

/-- The `priority` column of a task. -/
inductive Priority where
  | low
  | medium
  | high
  | urgent
  deriving DecidableEq

/-- A row of the `Tasks` table, with the columns the analytics queries read. -/
structure Task where
  id : Nat
  assigneeId : Option Nat
  status : Status
  priority : Priority
  complexity : Int
  createdAt : Int
  completedAt : Option Int

/-- A row of the `Users` table. -/
structure User where
  id : Nat
  username : String

/-- Milliseconds in an hour. -/
def msPerHour : Int := 1000 * 60 * 60

/-- Milliseconds in a day. -/
def msPerDay : Int := 24 * msPerHour

/-- SQL `x BETWEEN lo AND hi`. -/
def between (x lo hi : Int) : Bool := decide (lo ≤ x) && decide (x ≤ hi)

/-- SQL `TIMESTAMPDIFF(HOUR, a, b)`: the whole hours from `a` to `b`, truncated toward zero. -/
def timestampDiffHour (a b : Int) : Int := Int.tdiv (b - a) msPerHour

/-- SQL `DATE(t)`: the calendar day of an instant, as a day number since 1970-01-01. -/
def dateOf (t : Int) : Int := t / msPerDay

/-- SQL `DAYOFWEEK(t)`: 1 = Sunday, 2 = Monday, ..., 7 = Saturday (1970-01-01 was a Thursday). -/
def dayOfWeek (t : Int) : Int := (dateOf t + 4) % 7 + 1

/-- The correlation `Task.assigneeId = User.id`. -/
def assignedTo (u : User) (t : Task) : Bool := decide (t.assigneeId = some u.id)

/-- Subquery `assignedTasks`: `COUNT(DISTINCT Task.id)` over the user's tasks created in the
window. -/
def assignedTasksQuery (startDate endDate : Int) (tasks : List Task) (u : User) : Nat :=
  ((tasks.filter (fun t => assignedTo u t && between t.createdAt startDate endDate)).map
    (fun t => t.id)).dedup.length

/-- Subquery `completedTasks`: as `assignedTasks`, restricted to completed tasks that carry a
completion instant. -/
def completedTasksQuery (startDate endDate : Int) (tasks : List Task) (u : User) : Nat :=
  ((tasks.filter (fun t => assignedTo u t && decide (t.status = Status.completed)
      && t.completedAt.isSome && between t.createdAt startDate endDate)).map
    (fun t => t.id)).dedup.length

/-- The summand of the work-hours subquery for one task:
`TIMESTAMPDIFF(HOUR, GREATEST(createdAt, start), LEAST(IFNULL(completedAt, NOW()), end))
 * (complexity / 5.0)`. -/
def workHoursTerm (startDate endDate sqlNow : Int) (t : Task) : ℚ :=
  (timestampDiffHour (Max.max t.createdAt startDate)
      (Min.min (t.completedAt.getD sqlNow) endDate) : ℚ) * ((t.complexity : ℚ) / 5)

/-- The row filter of the work-hours subquery. -/
def workHoursFilter (startDate endDate : Int) (u : User) (t : Task) : Bool :=
  assignedTo u t && decide (t.createdAt ≤ endDate)
    && (t.completedAt.isNone || decide (startDate ≤ t.completedAt.getD 0))
    && decide (t.status ≠ Status.cancelled)

/-- Subquery `totalWorkHours`: `COALESCE(SUM(...), 0)`. -/
def totalWorkHoursQuery (startDate endDate sqlNow : Int) (tasks : List Task) (u : User) : ℚ :=
  ((tasks.filter (workHoursFilter startDate endDate u)).map
    (workHoursTerm startDate endDate sqlNow)).sum

/-- The row filter of the work-days subquery. -/
def workDaysFilter (startDate endDate : Int) (u : User) (t : Task) : Bool :=
  assignedTo u t && between t.createdAt startDate endDate
    && !(decide (dayOfWeek t.createdAt = 1) || decide (dayOfWeek t.createdAt = 7))

/-- Subquery `workDays`: `COUNT(DISTINCT DATE(Task.createdAt))` outside weekends. -/
def workDaysQuery (startDate endDate : Int) (tasks : List Task) (u : User) : Nat :=
  ((tasks.filter (workDaysFilter startDate endDate u)).map
    (fun t => dateOf t.createdAt)).dedup.length

/-- A raw row returned by `User.findAll` in `getTeamPerformance`. -/
structure RawTeam where
  id : Nat
  username : String
  assignedTasks : Nat
  completedTasks : Nat
  totalWorkHours : ℚ
  workDays : Nat

/-- The `User.findAll` call of `getTeamPerformance`: one raw row per user. -/
def findAllTeams (startDate endDate sqlNow : Int) (users : List User) (tasks : List Task) :
    List RawTeam :=
  users.map (fun u =>
    { id := u.id
      username := u.username
      assignedTasks := assignedTasksQuery startDate endDate tasks u
      completedTasks := completedTasksQuery startDate endDate tasks u
      totalWorkHours := totalWorkHoursQuery startDate endDate sqlNow tasks u
      workDays := workDaysQuery startDate endDate tasks u })

/-- The value `parseInt(x)` on a decimal value: the integer part, truncated toward zero. -/
def parseInt (q : ℚ) : Int := Int.tdiv q.num (q.den : Int)

/-- The value `parseInt(team.totalWorkHours || 0)`. -/
def parsedWorkHours (team : RawTeam) : Int :=
  parseInt (if team.totalWorkHours = 0 then 0 else team.totalWorkHours)

/-- The value `parseInt(team.workDays || 1)`. -/
def parsedWorkDays (team : RawTeam) : Nat :=
  if team.workDays = 0 then 1 else team.workDays

/-- The value `parseInt(team.completedTasks) / parseInt(team.assignedTasks)`. -/
def rawCompletionRate (team : RawTeam) : JSNum :=
  JSNum.div (JSNum.fin team.completedTasks) (JSNum.fin team.assignedTasks)

/-- An element of `teams` in the team-performance response. -/
structure TeamEntry where
  id : Nat
  name : String
  assignedTasks : Nat
  completedTasks : Nat
  totalWorkHours : Int
  workDays : Nat
  completionRate : JSNum

/-- An element of `completionRates` in the team-performance response. -/
structure RateEntry where
  teamId : Nat
  teamName : String
  completionRate : JSNum

/-- The `metrics` object of the team-performance response. -/
structure Metrics where
  totalCompletedTasks : Nat
  totalWorkHours : Int
  averageTasksPerDay : JSNum

/-- The object handed to `res.json` by `getTeamPerformance` (serialisation turns a `NaN`
into `null`). -/
structure TeamPerformance where
  teams : List TeamEntry
  timeframeStart : Int
  timeframeEnd : Int
  completionRates : List RateEntry
  metrics : Metrics

/-- The response construction of `getTeamPerformance` from the raw rows. -/
def buildTeamPerformance (startDate endDate : Int) (teams : List RawTeam) : TeamPerformance :=
  { teams := teams.map (fun team =>
      { id := team.id
        name := team.username
        assignedTasks := team.assignedTasks
        completedTasks := team.completedTasks
        totalWorkHours := parsedWorkHours team
        workDays := parsedWorkDays team
        completionRate := rawCompletionRate team })
    timeframeStart := startDate
    timeframeEnd := endDate
    completionRates := teams.map (fun team =>
      { teamId := team.id
        teamName := team.username
        completionRate := rawCompletionRate team })
    metrics :=
      { totalCompletedTasks := teams.foldl (fun sum team => sum + team.completedTasks) 0
        totalWorkHours := teams.foldl (fun sum team => sum + parsedWorkHours team) 0
        averageTasksPerDay :=
          JSNum.div
            (teams.foldl (fun sum team =>
              JSNum.add sum (JSNum.div (JSNum.fin team.completedTasks)
                (JSNum.fin (parsedWorkDays team)))) (JSNum.fin 0))
            (JSNum.fin teams.length) } }

/-- The handler `getTeamPerformance` over a window `[startDate, endDate]`, the database clock
`sqlNow` and the contents of the two tables. -/
def getTeamPerformance (startDate endDate sqlNow : Int) (users : List User)
    (tasks : List Task) : TeamPerformance :=
  buildTeamPerformance startDate endDate (findAllTeams startDate endDate sqlNow users tasks)

/-! ## Server: the task-statistics handler -/

/-- The value `Math.round(x)`: the nearest integer, a tie going toward positive infinity. -/
def mathRound (x : ℚ) : Int := ⌊x + 1 / 2⌋

/-- An element of `completedTasks` in the task-statistics response: the five selected
columns and the added `completionTime`.  The query selects no `assigneeId`. -/
structure CompletedTaskEntry where
  id : Nat
  createdAt : Int
  completedAt : Option Int
  priority : Priority
  complexity : Int
  completionTime : Option Int

/-- The object handed to `res.json` by `getTaskStatistics`. -/
structure TaskStatistics where
  statusBreakdown : List (Status × Nat)
  priorityBreakdown : List (Priority × Nat)
  completedTasks : List CompletedTaskEntry
  totalTasks : Nat

/-- The value `completionTime` that the response attaches to a completed task. -/
def completionTime (createdAt : Int) (completedAt : Option Int) : Option Int :=
  match completedAt with
  | some c => some (mathRound (((c - createdAt : Int) : ℚ) / (msPerHour : ℚ)))
  | none => none

/-- A `GROUP BY` count: the keys that occur, each with its number of rows. -/
def groupCount {α : Type} [DecidableEq α] (keys : List α) : List (α × Nat) :=
  keys.dedup.map (fun k => (k, keys.count k))

/-- The handler `getTaskStatistics` over the window `[startDate, endDate]`. -/
def getTaskStatistics (startDate endDate : Int) (tasks : List Task) : TaskStatistics :=
  let statusCounts := groupCount
    ((tasks.filter (fun t => between t.createdAt startDate endDate)).map (fun t => t.status))
  let completedTasks := tasks.filter (fun t =>
    decide (t.status = Status.completed) && t.completedAt.isSome
      && !decide (t.status = Status.cancelled))
  let priorityCounts := groupCount
    ((tasks.filter (fun t => !decide (t.status = Status.cancelled)
      && between t.createdAt startDate endDate)).map (fun t => t.priority))
  { statusBreakdown := statusCounts
    priorityBreakdown := priorityCounts
    completedTasks := completedTasks.map (fun task =>
      { id := task.id
        createdAt := task.createdAt
        completedAt := task.completedAt
        priority := task.priority
        complexity := task.complexity
        completionTime := completionTime task.createdAt task.completedAt })
    totalTasks := (statusCounts.map (fun e => e.2)).foldl (fun sum count => sum + count) 0 }

/-! ## Client: the analytics provider -/

/-- A JavaScript exception. -/
inductive JSError where
  | syntaxError
  | typeError
  deriving DecidableEq

/-- An element of `teams` as the provider receives it. -/
structure TeamRecord where
  id : Nat
  name : String
  assignedTasks : ℚ
  completedTasks : ℚ
  totalWorkHours : ℚ
  workDays : ℚ

/-- An element of `completedTasks` as the provider reads it: `assigneeId` and `priority`
are `none` when the received object has no such field. -/
structure StatTask where
  assigneeId : Option Nat
  priority : Option Priority
  complexity : ℚ

/-- The task-statistics payload as the provider reads it. -/
structure TaskStats where
  statusBreakdown : List (Status × ℚ)
  completedTasks : List StatTask

/-- A derived element of `processedTeamData.completionRates`. -/
structure ClientRate where
  teamId : Nat
  teamName : String
  completionRate : JSNum

/-- The provider state `teamPerformance`. -/
structure ClientTeamPerformance where
  teams : List TeamRecord
  completionRates : List ClientRate

/-- A task-statistics entry after transport: the response object has no `assigneeId`. -/
def StatTask.ofResponse (e : CompletedTaskEntry) : StatTask :=
  { assigneeId := none
    priority := some e.priority
    complexity := (e.complexity : ℚ) }

/-- The task-statistics response after transport to the provider. -/
def TaskStats.ofResponse (r : TaskStatistics) : TaskStats :=
  { statusBreakdown := r.statusBreakdown.map (fun e => (e.1, (e.2 : ℚ)))
    completedTasks := r.completedTasks.map StatTask.ofResponse }

/-- The value `taskResponse.data.statusBreakdown.cancelled || 0`. -/
def cancelledCount (stats : TaskStats) : ℚ :=
  match stats.statusBreakdown.find? (fun e => decide (e.1 = Status.cancelled)) with
  | some e => if e.2 = 0 then 0 else e.2
  | none => 0

/-- The completion rate `fetchAnalytics` derives for one team. -/
def clientCompletionRate (stats : TaskStats) (team : TeamRecord) : JSNum :=
  let totalActiveTasks := team.assignedTasks - cancelledCount stats
  if 0 < totalActiveTasks then
    JSNum.div (JSNum.fin team.completedTasks) (JSNum.fin totalActiveTasks)
  else JSNum.fin 0

/-- The value `processedTeamData` built by `fetchAnalytics`. -/
def processTeamData (teams : List TeamRecord) (stats : TaskStats) : ClientTeamPerformance :=
  { teams := teams
    completionRates := teams.map (fun team =>
      { teamId := team.id
        teamName := team.name
        completionRate := clientCompletionRate stats team }) }

/-- The weight `{ low: 1, medium: 1.5, high: 2, urgent: 3 }[task.priority] || 1`. -/
def priorityWeight : Option Priority → ℚ
  | some Priority.low => 1
  | some Priority.medium => 3 / 2
  | some Priority.high => 2
  | some Priority.urgent => 3
  | none => 1

/-- The tasks of the detail list that `task.assigneeId === teamId` keeps. -/
def tasksOfTeam (stats : TaskStats) (teamId : Nat) : List StatTask :=
  stats.completedTasks.filter (fun task => decide (task.assigneeId = some teamId))

/-- The provider function `calculateTeamEfficiency`. -/
def calculateTeamEfficiency (teamPerformance : Option ClientTeamPerformance)
    (taskStats : Option TaskStats) (teamId : Nat) : JSNum :=
  match teamPerformance, taskStats with
  | some tp, some stats =>
    match tp.teams.find? (fun t => decide (t.id = teamId)) with
    | none => JSNum.fin 0
    | some team =>
      let weightedTasks := (tasksOfTeam stats teamId).foldl
        (fun sum task => sum + task.complexity * priorityWeight task.priority) 0
      JSNum.div (JSNum.fin weightedTasks)
        (JSNum.orElse (JSNum.fin team.totalWorkHours) (JSNum.fin 1))
  | _, _ => JSNum.fin 0

/-- The provider function `calculateProjection`; reading `taskStats.completedTasks` while
`taskStats` is still `null` raises a `TypeError`. -/
def calculateProjection (teamPerformance : Option ClientTeamPerformance)
    (taskStats : Option TaskStats) (teamId : Nat) (targetTasks : ℚ) : Except JSError JSNum :=
  match teamPerformance with
  | none => Except.ok (JSNum.fin 0)
  | some tp =>
    match tp.teams.find? (fun t => decide (t.id = teamId)) with
    | none => Except.ok (JSNum.fin 0)
    | some team =>
      if team.workDays = 0 then Except.ok (JSNum.fin 0)
      else
        match taskStats with
        | none => Except.error JSError.typeError
        | some stats =>
          let averageComplexity := JSNum.div
            (JSNum.fin ((tasksOfTeam stats teamId).foldl
              (fun sum task => sum + task.complexity) 0))
            (JSNum.fin team.completedTasks)
          let adjustedTasksPerDay := JSNum.div
            (JSNum.div (JSNum.fin team.completedTasks) (JSNum.fin team.workDays))
            (JSNum.orElse averageComplexity (JSNum.fin 1))
          Except.ok (JSNum.div (JSNum.fin targetTasks) adjustedTasksPerDay)

/-! ## Client: the paged task cache of `useTaskData`

`localStorage` maps keys to strings.  A stored string is represented by what the hook can
observe of it: whether `JSON.parse` accepts it, whether the parsed value can be
destructured, its `data` property and the number its `timestamp` property converts to.
Cached data are JSON values, so that `JSON.parse (JSON.stringify v)` is `v`.  The in-memory
`Map` `cache.current` is only ever written, never read, and is not represented. -/

/-- A JSON value. -/
inductive JVal where
  | null
  | bool (b : Bool)
  | num (n : Int)
  | str (s : String)
  | arr (items : List JVal)
  | obj (props : List (String × JVal))

/-- A JavaScript value that is `undefined` (`none`) or a JSON value. -/
abbrev JSValue := Option JVal

/-- A string held by `localStorage`. -/
inductive StoredText where
  /-- A text that `JSON.parse` rejects with a `SyntaxError` (this includes the empty text). -/
  | invalid (raw : String)
  /-- The text `null`: it parses, and destructuring the result raises a `TypeError`. -/
  | jsonNull
  /-- Any other text that parses: `data` is the `data` property of the parsed value
  (`none` when there is none) and `timestamp` is what its `timestamp` property converts to
  in `Date.now() - timestamp` (`NaN` when the property is missing or not numeric). -/
  | entry (data : JSValue) (timestamp : JSNum)

/-- The contents of `localStorage`. -/
abbrev Storage := String → Option StoredText

/-- The call `localStorage.setItem(key, text)`. -/
def Storage.setItem (s : Storage) (key : String) (text : StoredText) : Storage :=
  fun k => if k = key then some text else s k

/-- The call `localStorage.removeItem(key)`. -/
def Storage.removeItem (s : Storage) (key : String) : Storage :=
  fun k => if k = key then none else s k

/-- The constant `CACHE_PREFIX`. -/
def CACHE_PREFIX : String := "task_cache_"

/-- The constant `CACHE_EXPIRY`: five minutes, in milliseconds. -/
def CACHE_EXPIRY : Int := 5 * 60 * 1000

/-- The decimal digits of a natural number, most significant first (none for zero). -/
def natDigits (n : Nat) : List Char :=
  ((Nat.digits 10 n).map (fun d => Char.ofNat (48 + d))).reverse

/-- The text of an integer in a template literal or in `JSON.stringify` (integers below
`10 ^ 21` in absolute value, which JavaScript prints in plain decimal). -/
def numToString (n : Int) : String :=
  match n with
  | Int.ofNat 0 => "0"
  | Int.ofNat (m + 1) => String.mk (natDigits (m + 1))
  | Int.negSucc m => String.mk ('-' :: natDigits (m + 1))

/-- A value of a field of the `filters` object. -/
inductive FilterValue where
  | undefined
  | null
  | bool (b : Bool)
  | num (n : Int)
  | str (s : String)

/-- The `filters` object: its fields in the order in which JavaScript enumerates them. -/
abbrev Filters := List (String × FilterValue)

/-- A hexadecimal digit, lower case. -/
def hexDigit (n : Nat) : Char :=
  if n < 10 then Char.ofNat (48 + n) else Char.ofNat (87 + n)

/-- The escape of one character inside a JSON string. -/
def jsonEscapeChar (c : Char) : List Char :=
  if c.toNat = 34 then [Char.ofNat 92, Char.ofNat 34]
  else if c.toNat = 92 then [Char.ofNat 92, Char.ofNat 92]
  else if c.toNat = 8 then [Char.ofNat 92, 'b']
  else if c.toNat = 12 then [Char.ofNat 92, 'f']
  else if c.toNat = 10 then [Char.ofNat 92, 'n']
  else if c.toNat = 13 then [Char.ofNat 92, 'r']
  else if c.toNat = 9 then [Char.ofNat 92, 't']
  else if c.toNat < 32 then
    [Char.ofNat 92, 'u', '0', '0', hexDigit (c.toNat / 16), hexDigit (c.toNat % 16)]
  else [c]

/-- The text `JSON.stringify(s)` of a string. -/
def jsonQuote (s : String) : String :=
  String.mk (Char.ofNat 34 :: (s.data.flatMap jsonEscapeChar ++ [Char.ofNat 34]))

/-- The member `"key":value` of a field, if `JSON.stringify` prints the field at all. -/
def jsonMember (field : String × FilterValue) : Option String :=
  match field.2 with
  | FilterValue.undefined => none
  | FilterValue.null => some (jsonQuote field.1 ++ ":" ++ "null")
  | FilterValue.bool b => some (jsonQuote field.1 ++ ":" ++ (if b then "true" else "false"))
  | FilterValue.num n => some (jsonQuote field.1 ++ ":" ++ numToString n)
  | FilterValue.str v => some (jsonQuote field.1 ++ ":" ++ jsonQuote v)

/-- The text `JSON.stringify(filters)`. -/
def stringifyFilters (filters : Filters) : String :=
  String.singleton (Char.ofNat 123) ++ ",".intercalate (filters.filterMap jsonMember)
    ++ String.singleton (Char.ofNat 125)

/-- The template literal of `getCacheKey`, over the text of the filters. -/
def cacheKey (filtersJson : String) (page pageSize : Int) : String :=
  CACHE_PREFIX ++ filtersJson ++ "_" ++ numToString page ++ "_" ++ numToString pageSize

/-- The arguments of the hook `useTaskData`. -/
structure Hook where
  filters : Filters
  pageSize : Int

/-- The function `getCacheKey`. -/
def getCacheKey (h : Hook) (page : Int) : String :=
  cacheKey (stringifyFilters h.filters) page h.pageSize

/-- The function `getFromCache` at the instant `now`: what it returns or raises, and the
storage it leaves.  A miss returns `null`. -/
def getFromCache (h : Hook) (now : Int) (store : Storage) (page : Int) :
    Except JSError JSValue × Storage :=
  let key := getCacheKey h page
  match store key with
  | none => (Except.ok (some JVal.null), store)
  | some (StoredText.invalid raw) =>
    if raw = "" then (Except.ok (some JVal.null), store)
    else (Except.error JSError.syntaxError, store)
  | some StoredText.jsonNull => (Except.error JSError.typeError, store)
  | some (StoredText.entry data timestamp) =>
    if JSNum.lt (JSNum.sub (JSNum.fin now) timestamp) (JSNum.fin CACHE_EXPIRY) then
      (Except.ok data, store)
    else (Except.ok (some JVal.null), store.removeItem key)

/-- The function `setCache` at the instant `now`. -/
def setCache (h : Hook) (now : Int) (store : Storage) (page : Int) (data : JVal) : Storage :=
  store.setItem (getCacheKey h page) (StoredText.entry (some data) (JSNum.fin now))

/-- The truthiness of a value. -/
def JVal.truthy : JVal → Bool
  | JVal.null => false
  | JVal.bool b => b
  | JVal.num n => decide (n ≠ 0)
  | JVal.str s => decide (s ≠ "")
  | JVal.arr _ => true
  | JVal.obj _ => true

/-- The property `v.name` of a value other than `null`, for a name that no prototype
defines (`tasks`, `totalPages`, `id`). -/
def JVal.prop (v : JVal) (name : String) : JSValue :=
  match v with
  | JVal.obj props => props.lookup name
  | _ => none

/-- The comparison `a === b`; two objects or arrays obtained separately are never the same
reference. -/
def strictEq (a : JSValue) (b : JVal) : Bool :=
  match a, b with
  | some JVal.null, JVal.null => true
  | some (JVal.bool x), JVal.bool y => decide (x = y)
  | some (JVal.num x), JVal.num y => decide (x = y)
  | some (JVal.str x), JVal.str y => decide (x = y)
  | _, _ => false

/-- The own enumerable properties that an object spread copies. -/
def ownProps : JVal → List (String × JVal)
  | JVal.obj props => props
  | JVal.arr items => items.enum.map (fun e => (numToString e.1, e.2))
  | JVal.str s => s.data.enum.map (fun e => (numToString e.1, JVal.str (String.singleton e.2)))
  | _ => []

/-- The assignment of one property: an existing one keeps its place, a new one goes last. -/
def setProp : List (String × JVal) → String → JVal → List (String × JVal)
  | [], name, v => [(name, v)]
  | (k, w) :: rest, name, v =>
    if k = name then (k, v) :: rest else (k, w) :: setProp rest name v

/-- The object literal `{ ...a, ...b }`, given the properties of `a` and of `b`. -/
def objectSpread (a b : List (String × JVal)) : List (String × JVal) :=
  b.foldl (fun acc kv => setProp acc kv.1 kv.2) a

/-- The callback `task => task.id === taskId ? { ...task, ...updatedTask } : task`. -/
def patchTask (taskId updatedTask task : JVal) : Except JSError JVal :=
  match task with
  | JVal.null => Except.error JSError.typeError
  | _ =>
    if strictEq (task.prop "id") taskId then
      Except.ok (JVal.obj (objectSpread (ownProps task) (ownProps updatedTask)))
    else Except.ok task

/-- Why a hook operation ended in its `catch` branch. -/
inductive Failure where
  | rejected (message : String)
  | thrown (e : JSError)

/-- The function `updateTask` at the instant `now`, as far as the cache goes: `apiResult`
is the outcome of `apiUpdateTask(taskId, updatedData)`. -/
def updateTask (h : Hook) (now : Int) (store : Storage) (page : Int) (taskId : JVal)
    (apiResult : Except String JVal) : Except Failure Unit × Storage :=
  match apiResult with
  | Except.error message => (Except.error (Failure.rejected message), store)
  | Except.ok updatedTask =>
    match getFromCache h now store page with
    | (Except.error e, store1) => (Except.error (Failure.thrown e), store1)
    | (Except.ok none, store1) => (Except.ok (), store1)
    | (Except.ok (some cachedData), store1) =>
      if cachedData.truthy then
        match cachedData with
        | JVal.obj props =>
          match props.lookup "tasks" with
          | some (JVal.arr tasks) =>
            match tasks.mapM (patchTask taskId updatedTask) with
            | Except.error e => (Except.error (Failure.thrown e), store1)
            | Except.ok patched =>
              (Except.ok (),
                setCache h now store1 page (JVal.obj (setProp props "tasks" (JVal.arr patched))))
          | _ => (Except.error (Failure.thrown JSError.typeError), store1)
        | _ => (Except.error (Failure.thrown JSError.typeError), store1)
      else (Except.ok (), store1)

/-- The response of `fetchTasks`. -/
structure FetchResponse where
  tasks : JVal
  total : Int

/-- How a call of `loadTasks` ends. -/
inductive LoadOutcome where
  /-- The cached data were used; no request was made. -/
  | fromCache (cachedData : JVal)
  /-- The page was requested and the response stored. -/
  | fetched (data : JVal)
  /-- The `catch` branch ran: `setError(err.message)`. -/
  | failed (f : Failure)

/-- The JSON image of `Math.ceil(response.total / pageSize)`: `null` when the quotient is
not finite. -/
def totalPagesOf (total pageSize : Int) : JVal :=
  if pageSize = 0 then JVal.null else JVal.num ⌈(total : ℚ) / (pageSize : ℚ)⌉

/-- The function `loadTasks`: `now` is the instant of the cache lookup, `later` the instant
at which the response is stored, `response` the outcome of `fetchTasks` if it is called. -/
def loadTasks (h : Hook) (now later : Int) (store : Storage) (currentPage : Int)
    (response : Except String FetchResponse) : LoadOutcome × Storage :=
  match getFromCache h now store currentPage with
  | (Except.error e, store1) => (LoadOutcome.failed (Failure.thrown e), store1)
  | (Except.ok cachedData, store1) =>
    match cachedData.filter JVal.truthy with
    | some v => (LoadOutcome.fromCache v, store1)
    | none =>
      match response with
      | Except.error message => (LoadOutcome.failed (Failure.rejected message), store1)
      | Except.ok r =>
        let data := JVal.obj [("tasks", r.tasks), ("totalPages", totalPagesOf r.total h.pageSize)]
        (LoadOutcome.fetched data, setCache h later store1 currentPage data)

/-- The hook state that pagination reads and writes. -/
structure Paging where
  page : Int
  totalPages : Int

/-- The function `nextPage`. -/
def nextPage (s : Paging) : Paging :=
  if s.page < s.totalPages then { s with page := s.page + 1 } else s

/-- The function `prevPage`. -/
def prevPage (s : Paging) : Paging :=
  if s.page > 1 then { s with page := s.page - 1 } else s

/-! ## Reference definitions and sample data used by the statements -/

/-- The instant 2024-01-01T00:00Z plus `d - 1` days. -/
def january2024 (d : Int) : Int := 1704067200000 + (d - 1) * msPerDay

/-- Scenario A: the three tasks of user `7`; the complexity and completion instant of the
cancelled task are left open. -/
def scenarioA (complexityC : Int) (completedAtC : Option Int) : List Task :=
  [ { id := 1, assigneeId := some 7, status := Status.completed, priority := Priority.medium,
      complexity := 5, createdAt := january2024 1, completedAt := some (january2024 2) },
    { id := 2, assigneeId := some 7, status := Status.in_progress, priority := Priority.medium,
      complexity := 10, createdAt := january2024 3, completedAt := none },
    { id := 3, assigneeId := some 7, status := Status.cancelled, priority := Priority.medium,
      complexity := complexityC, createdAt := january2024 5, completedAt := completedAtC } ]

/-- The mean that the claim gives for `averageTasksPerDay`: over the users, of
`completedTasks / max(workDays, 1)`. -/
def averageTasksPerDaySpec (teams : List RawTeam) : ℚ :=
  (teams.map (fun team => (team.completedTasks : ℚ) / (Max.max team.workDays 1 : ℕ))).sum
    / teams.length

/-- The calendar test of the claim on a day number: the day is neither a Sunday nor a
Saturday (day `0`, 1970-01-01, was a Thursday). -/
def isMondayToFriday (d : Int) : Bool :=
  decide ((d + 4) % 7 ≠ 0) && decide ((d + 4) % 7 ≠ 6)

/-- The count that the claim gives for `workDays`: the distinct dates among the creation
instants of the user's tasks in the window, kept when they fall on Monday to Friday. -/
def workDaysSpec (startDate endDate : Int) (tasks : List Task) (u : User) : Nat :=
  (((tasks.filter (fun t => assignedTo u t && between t.createdAt startDate endDate)).map
      (fun t => dateOf t.createdAt)).toFinset.filter (fun d => isMondayToFriday d = true)).card

/-- The projection that the claim gives:
`targetTasks / ((completedTasks / workDays) / averageComplexity)`, with `averageComplexity`
the sum of the complexities of the team's detail entries divided by their number. -/
def projectionSpec (team : TeamRecord) (stats : TaskStats) (teamId : Nat) (targetTasks : ℚ) :
    JSNum :=
  let averageComplexity := JSNum.div
    (JSNum.fin ((tasksOfTeam stats teamId).map (fun task => task.complexity)).sum)
    (JSNum.fin (tasksOfTeam stats teamId).length)
  JSNum.div (JSNum.fin targetTasks)
    (JSNum.div (JSNum.div (JSNum.fin team.completedTasks) (JSNum.fin team.workDays))
      averageComplexity)

/-- The weight table of the claim; an entry without a priority weighs `1`. -/
def priorityWeightSpec : Option Priority → ℚ
  | some Priority.low => 1
  | some Priority.medium => 3 / 2
  | some Priority.high => 2
  | some Priority.urgent => 3
  | none => 1

/-- The efficiency that the claim gives: the weighted sum over the team's detail entries,
divided by `max(totalWorkHours, 1)`. -/
def efficiencySpec (team : TeamRecord) (stats : TaskStats) (teamId : Nat) : JSNum :=
  JSNum.div
    (JSNum.fin ((tasksOfTeam stats teamId).map
      (fun task => task.complexity * priorityWeightSpec task.priority)).sum)
    (JSNum.max (JSNum.fin team.totalWorkHours) (JSNum.fin 1))

/-- The team record of the C9 counterexample: half an hour of work. -/
def halfHourTeam : TeamRecord :=
  { id := 1, name := "a", assignedTasks := 1, completedTasks := 1, totalWorkHours := 1 / 2,
    workDays := 1 }

/-- The detail list of the C9 counterexample: one low-priority task of complexity `1`. -/
def oneLowTask : TaskStats :=
  { statusBreakdown := [],
    completedTasks := [{ assigneeId := some 1, priority := some Priority.low, complexity := 1 }] }

/-- The filters `{ projectId: 1, userId: 2 }`. -/
def filtersProjectFirst : Filters :=
  [("projectId", FilterValue.num 1), ("userId", FilterValue.num 2)]

/-- The same filters built in the other order, `{ userId: 2, projectId: 1 }`. -/
def filtersUserFirst : Filters :=
  [("userId", FilterValue.num 2), ("projectId", FilterValue.num 1)]

/-- A pagination action. -/
inductive PageAction where
  | next
  | prev

/-- The effect of one pagination action. -/
def PageAction.apply : PageAction → Paging → Paging
  | PageAction.next, s => nextPage s
  | PageAction.prev, s => prevPage s

/-- The effect of a sequence of pagination actions. -/
def runPaging (steps : List PageAction) (s : Paging) : Paging :=
  steps.foldl (fun s a => a.apply s) s

/-- The task list after the patch: every task whose `id` is `taskId` replaced by the merge
of its fields with those of `updatedTask`, every other task kept. -/
def patchedTasks (taskId updatedTask : JVal) (tasks : List JVal) : List JVal :=
  tasks.map (fun task =>
    if strictEq (task.prop "id") taskId then
      JVal.obj (objectSpread (ownProps task) (ownProps updatedTask))
    else task)

/-- The team record of the C8 counterexample: two completed tasks on one work day. -/
def twoDoneTeam : TeamRecord :=
  { id := 1, name := "a", assignedTasks := 2, completedTasks := 2, totalWorkHours := 8,
    workDays := 1 }

/-- The detail list of the C8 counterexample: a single task, of complexity `4`. -/
def oneTaskOfFour : TaskStats :=
  { statusBreakdown := [],
    completedTasks := [{ assigneeId := some 1, priority := some Priority.low, complexity := 4 }] }

/-- A team record with one completed task on one work day. -/
def steadyTeam : TeamRecord :=
  { id := 1, name := "a", assignedTasks := 1, completedTasks := 1, totalWorkHours := 0,
    workDays := 1 }

/-- A hook without filters, ten tasks to the page. -/
def sampleHook : Hook := { filters := [], pageSize := 10 }

/-- The properties of a sample payload: one task, of id `1`, on a single page. -/
def sampleProps : List (String × JVal) :=
  [("tasks", JVal.arr [JVal.obj [("id", JVal.num 1), ("title", JVal.str "draft")]]),
   ("totalPages", JVal.num 1)]

/-- The storage after `setCache` stored the sample payload for page `1` at instant `0`. -/
def sampleStore : Storage :=
  setCache sampleHook 0 (fun _ => none) 1 (JVal.obj sampleProps)

/-- A storage that holds, under the key of page `1`, a text that is not JSON. -/
def corruptStore : Storage :=
  Storage.setItem (fun _ => none) (getCacheKey sampleHook 1) (StoredText.invalid "oops")

/-- A response of `fetchTasks` without any task. -/
def sampleResponse : FetchResponse := { tasks := JVal.arr [], total := 0 }

/-! ## Properties of the team-performance aggregation -/

theorem parseInt_nonneg {q : ℚ} (hq : 0 ≤ q) : 0 ≤ parseInt q := by
  unfold parseInt
  exact Int.tdiv_nonneg (Rat.num_nonneg.mpr hq) (Int.ofNat_nonneg _)

theorem timestampDiffHour_nonneg {a b : Int} (hab : a ≤ b) : 0 ≤ timestampDiffHour a b := by
  unfold timestampDiffHour
  exact Int.tdiv_nonneg (by omega) (by unfold msPerHour; norm_num)

theorem workHoursTerm_nonneg (startDate endDate sqlNow : Int) (u : User) (t : Task)
    (hwin : startDate ≤ endDate) (hnow : startDate ≤ sqlNow)
    (hc : 0 ≤ t.complexity)
    (hdone : ∀ c, t.completedAt = some c → t.createdAt ≤ c)
    (hopen : t.completedAt = none → t.createdAt ≤ sqlNow)
    (hf : workHoursFilter startDate endDate u t = true) :
    0 ≤ workHoursTerm startDate endDate sqlNow t := by
  unfold workHoursTerm
  have hle : Max.max t.createdAt startDate ≤ Min.min (t.completedAt.getD sqlNow) endDate := by
    simp only [workHoursFilter, Bool.and_eq_true, Bool.or_eq_true, decide_eq_true_eq] at hf
    obtain ⟨⟨⟨_, hce⟩, hcs⟩, _⟩ := hf
    cases hca : t.completedAt with
    | none =>
      have := hopen hca
      simp only [Option.getD_none]
      exact max_le (le_min this hce) (le_min hnow hwin)
    | some c =>
      have := hdone c hca
      simp only [hca, Option.isNone_some, Option.getD_some, false_or] at hcs
      simp only [Option.getD_some]
      exact max_le (le_min this hce) (le_min (by simpa using hcs) hwin)
  have h1 : (0 : ℚ) ≤ (timestampDiffHour (Max.max t.createdAt startDate)
      (Min.min (t.completedAt.getD sqlNow) endDate) : ℚ) := by
    exact_mod_cast timestampDiffHour_nonneg hle
  have h2 : (0 : ℚ) ≤ (t.complexity : ℚ) / 5 := by
    have : (0 : ℚ) ≤ (t.complexity : ℚ) := by exact_mod_cast hc
    positivity
  exact mul_nonneg h1 h2

theorem totalWorkHoursQuery_nonneg (startDate endDate sqlNow : Int) (u : User)
    (tasks : List Task) (hwin : startDate ≤ endDate) (hnow : startDate ≤ sqlNow)
    (hc : ∀ t ∈ tasks, 0 ≤ t.complexity)
    (hdone : ∀ t ∈ tasks, ∀ c, t.completedAt = some c → t.createdAt ≤ c)
    (hopen : ∀ t ∈ tasks, t.completedAt = none → t.createdAt ≤ sqlNow) :
    0 ≤ totalWorkHoursQuery startDate endDate sqlNow tasks u := by
  unfold totalWorkHoursQuery
  apply List.sum_nonneg
  intro x hx
  obtain ⟨t, ht, rfl⟩ := List.mem_map.mp hx
  obtain ⟨htm, hf⟩ := List.mem_filter.mp ht
  exact workHoursTerm_nonneg startDate endDate sqlNow u t hwin hnow (hc t htm) (hdone t htm)
    (hopen t htm) hf

/-- C1 (the code at the failing input): for a user without any task in the window the
handler divides `0` by `0`, so `completionRate` is `NaN` in `teams` and in
`completionRates` alike, where the claim requires `0`. -/
theorem C1_completionRate_nan_without_tasks (startDate endDate sqlNow : Int) (u : User) :
    (getTeamPerformance startDate endDate sqlNow [u] []).teams.map
        (fun t => (t.assignedTasks, t.completionRate)) = [(0, JSNum.nan)]
    ∧ (getTeamPerformance startDate endDate sqlNow [u] []).completionRates.map
        (fun r => r.completionRate) = [JSNum.nan] := by
  simp [getTeamPerformance, buildTeamPerformance, findAllTeams, rawCompletionRate,
    assignedTasksQuery, completedTasksQuery, JSNum.div]

/-- C5 (counterexample): a completed task whose completion instant lies a day before its
creation instant passes the row filter and contributes `-24` hours, so `totalWorkHours`
is negative over the thirty-day window ending now. -/
theorem C5_counterexample :
    (getTeamPerformance 0 (30 * msPerDay) (30 * msPerDay) [⟨1, "u"⟩]
        [⟨1, some 1, Status.completed, Priority.low, 5, 2 * msPerDay, some msPerDay⟩]).teams.map
      (fun t => t.totalWorkHours) = [-24] := by
  simp [getTeamPerformance, buildTeamPerformance, findAllTeams, parsedWorkHours,
    totalWorkHoursQuery, workHoursFilter, workHoursTerm, assignedTo, timestampDiffHour,
    msPerDay, msPerHour, parseInt]
  decide

/-- C5 (amended): when no complexity is negative, no task is completed before it was
created, no open task was created after the database clock, and the window starts no later
than that clock nor than its own end, every `totalWorkHours` of the response is a
non-negative integer. -/
theorem C5_totalWorkHours_nonneg (startDate endDate sqlNow : Int) (users : List User)
    (tasks : List Task) (hwin : startDate ≤ endDate) (hnow : startDate ≤ sqlNow)
    (hc : ∀ t ∈ tasks, 0 ≤ t.complexity)
    (hdone : ∀ t ∈ tasks, ∀ c, t.completedAt = some c → t.createdAt ≤ c)
    (hopen : ∀ t ∈ tasks, t.completedAt = none → t.createdAt ≤ sqlNow) :
    ∀ e ∈ (getTeamPerformance startDate endDate sqlNow users tasks).teams,
      0 ≤ e.totalWorkHours := by
  intro e he
  simp only [getTeamPerformance, buildTeamPerformance, findAllTeams, List.map_map,
    List.mem_map, Function.comp] at he
  obtain ⟨u, _, rfl⟩ := he
  simp only [parsedWorkHours]
  apply parseInt_nonneg
  split
  · exact le_refl _
  · exact totalWorkHoursQuery_nonneg startDate endDate sqlNow u tasks hwin hnow hc hdone hopen

theorem parseInt_intCast (n : Int) : parseInt (n : ℚ) = n := by
  simp [parseInt]

/-- C6: Scenario A.  Over the window from 2024-01-01 to 2024-01-08, with the database clock
at or after the window end, the user owning the completed task A, the open task B and the
cancelled task C gets `assignedTasks = 3`, `completedTasks = 1`, `totalWorkHours = 264`,
`workDays = 3` and `completionRate = 1/3`, whatever the complexity and completion instant of
the cancelled task. -/
theorem C6_scenarioA (sqlNow complexityC : Int) (completedAtC : Option Int)
    (hnow : january2024 8 ≤ sqlNow) :
    (getTeamPerformance (january2024 1) (january2024 8) sqlNow [⟨7, "U"⟩]
        (scenarioA complexityC completedAtC)).teams
      = [ { id := 7, name := "U", assignedTasks := 3, completedTasks := 1,
            totalWorkHours := 264, workDays := 3, completionRate := JSNum.fin (1 / 3) } ] := by
  have h8 : Min.min sqlNow (january2024 8) = january2024 8 := min_eq_right hnow
  simp only [january2024, msPerDay, msPerHour] at h8
  norm_num at h8
  have h24 : Int.tdiv 86400000 3600000 = 24 := by decide
  have h120 : Int.tdiv 432000000 3600000 = 120 := by decide
  have hq : (24 + 120 * (10 / 5) : ℚ) = ((264 : ℤ) : ℚ) := by norm_num
  simp [getTeamPerformance, buildTeamPerformance, findAllTeams, scenarioA, parsedWorkHours,
    parsedWorkDays, rawCompletionRate, assignedTasksQuery, completedTasksQuery,
    totalWorkHoursQuery, workDaysQuery, workHoursFilter, workDaysFilter, workHoursTerm,
    assignedTo, between, timestampDiffHour, dateOf, dayOfWeek, january2024, msPerDay,
    msPerHour, JSNum.div, List.filter, h8, h24, h120]
  rw [hq, if_neg (by norm_num), parseInt_intCast]

theorem C6_scenarioA_witness :
    january2024 8 ≤ january2024 9
    ∧ (getTeamPerformance (january2024 1) (january2024 8) (january2024 9) [⟨7, "U"⟩]
        (scenarioA 4 none)).teams
      = [ { id := 7, name := "U", assignedTasks := 3, completedTasks := 1,
            totalWorkHours := 264, workDays := 3, completionRate := JSNum.fin (1 / 3) } ] :=
  ⟨by decide, C6_scenarioA (january2024 9) 4 none (by decide)⟩

theorem JSNum.div_fin_of_ne (a b : ℚ) (hb : b ≠ 0) :
    JSNum.div (JSNum.fin a) (JSNum.fin b) = JSNum.fin (a / b) := by
  simp [JSNum.div, hb]

theorem JSNum.add_fin (a b : ℚ) : JSNum.add (JSNum.fin a) (JSNum.fin b) = JSNum.fin (a + b) :=
  rfl

theorem foldl_tasksPerDay (teams : List RawTeam) (acc : ℚ) :
    teams.foldl (fun sum team =>
        JSNum.add sum (JSNum.div (JSNum.fin team.completedTasks)
          (JSNum.fin (parsedWorkDays team)))) (JSNum.fin acc)
      = JSNum.fin (acc + (teams.map (fun team =>
          (team.completedTasks : ℚ) / (Max.max team.workDays 1 : ℕ))).sum) := by
  induction teams generalizing acc with
  | nil => simp
  | cons t ts ih =>
    have hd : ((parsedWorkDays t : ℕ) : ℚ) ≠ 0 := by
      unfold parsedWorkDays
      split <;> simp_all
    have hmax : Max.max t.workDays 1 = parsedWorkDays t := by
      unfold parsedWorkDays
      split <;> omega
    rw [List.foldl_cons, JSNum.div_fin_of_ne _ _ hd, JSNum.add_fin, ih, List.map_cons,
      List.sum_cons, hmax, add_assoc]

/-- C14 (the code at the failing input): with no user row the handler divides `0` by
`teams.length = 0`, so `averageTasksPerDay` is `NaN`, where the claim requires `0`. -/
theorem C14_averageTasksPerDay_nan_without_users (startDate endDate sqlNow : Int)
    (tasks : List Task) :
    (getTeamPerformance startDate endDate sqlNow [] tasks).metrics.averageTasksPerDay
      = JSNum.nan := by
  simp [getTeamPerformance, buildTeamPerformance, findAllTeams, JSNum.div]

theorem averageTasksPerDay_of_ne_nil (startDate endDate : Int) (teams : List RawTeam)
    (h : teams ≠ []) :
    (buildTeamPerformance startDate endDate teams).metrics.averageTasksPerDay
      = JSNum.fin (averageTasksPerDaySpec teams) := by
  have hlen : ((teams.length : ℕ) : ℚ) ≠ 0 := by
    have : teams.length ≠ 0 := by simpa using h
    exact_mod_cast this
  simp only [buildTeamPerformance, foldl_tasksPerDay, zero_add]
  rw [JSNum.div_fin_of_ne _ _ hlen, averageTasksPerDaySpec]

theorem weekday_iff (t : Int) :
    (!(decide (dayOfWeek t = 1) || decide (dayOfWeek t = 7))) = isMondayToFriday (dateOf t) := by
  unfold dayOfWeek isMondayToFriday
  rw [Bool.eq_iff_iff]
  simp only [Bool.not_eq_true', Bool.or_eq_false_iff, decide_eq_false_iff_not,
    Bool.and_eq_true, decide_eq_true_eq]
  constructor <;> rintro ⟨h1, h2⟩ <;> constructor <;> omega

/-- C15: the work-days subquery counts exactly the distinct calendar dates, among the
creation instants of the user's tasks inside the window, that fall on Monday to Friday;
every date it counts is such a day, so a task created on a Saturday or Sunday adds none. -/
theorem C15_workDays_counts_weekday_dates (startDate endDate : Int) (tasks : List Task)
    (u : User) :
    workDaysQuery startDate endDate tasks u = workDaysSpec startDate endDate tasks u
    ∧ ∀ d ∈ ((tasks.filter (workDaysFilter startDate endDate u)).map
        (fun t => dateOf t.createdAt)), isMondayToFriday d = true := by
  constructor
  · unfold workDaysQuery workDaysSpec
    rw [← List.card_toFinset, ← List.toFinset_filter, List.filter_map, List.filter_filter]
    congr 3
    apply List.filter_congr
    intro t _
    simp only [workDaysFilter, weekday_iff, Function.comp, Bool.and_comm]
  · intro d hd
    obtain ⟨t, ht, rfl⟩ := List.mem_map.mp hd
    have := (List.mem_filter.mp ht).2
    simp only [workDaysFilter, weekday_iff, Bool.and_eq_true] at this
    exact this.2

theorem mathRound_near (x : ℚ) : |((mathRound x : Int) : ℚ) - x| ≤ 1 / 2 := by
  unfold mathRound
  have h1 := Int.floor_le (x + 1 / 2)
  have h2 := Int.lt_floor_add_one (x + 1 / 2)
  rw [abs_le]
  constructor <;> linarith

theorem mathRound_half (k : Int) : mathRound ((k : ℚ) + 1 / 2) = k + 1 := by
  unfold mathRound
  have : (k : ℚ) + 1 / 2 + 1 / 2 = ((k + 1 : Int) : ℚ) := by push_cast; ring
  rw [this, Int.floor_intCast]

/-- C17: every entry of `completedTasks` in the task-statistics response carries
`completionTime = Math.round(hours)` for its completion instant, an integer within half an
hour of the elapsed hours, an exact half-hour `k + 1/2` giving `k + 1`; without a
completion instant the field is `null`. -/
theorem C17_completionTime_rounds_hours (startDate endDate : Int) (tasks : List Task) :
    ∀ e ∈ (getTaskStatistics startDate endDate tasks).completedTasks,
      (∀ c, e.completedAt = some c →
        ∃ n : Int, e.completionTime = some n
          ∧ |(n : ℚ) - ((c - e.createdAt : Int) : ℚ) / 3600000| ≤ 1 / 2
          ∧ ∀ k : Int, ((c - e.createdAt : Int) : ℚ) / 3600000 = (k : ℚ) + 1 / 2 → n = k + 1)
      ∧ (e.completedAt = none → e.completionTime = none) := by
  intro e he
  simp only [getTaskStatistics, List.mem_map] at he
  obtain ⟨t, _, rfl⟩ := he
  have hms : ((msPerHour : Int) : ℚ) = 3600000 := by unfold msPerHour; norm_num
  constructor
  · intro c hc
    dsimp only at hc
    refine ⟨mathRound (((c - t.createdAt : Int) : ℚ) / 3600000), ?_, mathRound_near _, ?_⟩
    · simp only [hc, completionTime, hms]
    · intro k hk
      rw [hk, mathRound_half]
  · intro hc
    dsimp only at hc
    simp only [hc, completionTime]

theorem foldl_add_eq_sum {α : Type} (f : α → ℚ) (l : List α) (acc : ℚ) :
    l.foldl (fun sum x => sum + f x) acc = acc + (l.map f).sum := by
  induction l generalizing acc with
  | nil => simp
  | cons x xs ih => rw [List.foldl_cons, ih, List.map_cons, List.sum_cons, add_assoc]

/-- C7 (the code at the failing input): a team with `workDays = 5` and `completedTasks = 0`
passes the only guard, the pace is `0`, and the projection for a target of `10` tasks is
`Infinity`, where the claim requires `0`. -/
theorem C7_projection_infinite_without_completed :
    calculateProjection
      (some { teams := [{ id := 1, name := "a", assignedTasks := 4, completedTasks := 0,
                          totalWorkHours := 0, workDays := 5 }],
              completionRates := [] })
      (some { statusBreakdown := [], completedTasks := [] }) 1 10
      = Except.ok JSNum.posInf := by
  simp [calculateProjection, tasksOfTeam, JSNum.div, JSNum.orElse, JSNum.truthy]

/-- C8 (counterexample): a team record with `completedTasks = 2`, `workDays = 1` and a
single detail entry of complexity `4`: the code divides the sum `4` by `2` and projects
`10` days for `10` tasks, the claimed formula divides by the one entry and gives `20`. -/
theorem C8_counterexample :
    calculateProjection (some { teams := [twoDoneTeam], completionRates := [] })
        (some oneTaskOfFour) 1 10 = Except.ok (JSNum.fin 10)
    ∧ projectionSpec twoDoneTeam oneTaskOfFour 1 10 = JSNum.fin 20
    ∧ calculateProjection (some { teams := [twoDoneTeam], completionRates := [] })
        (some oneTaskOfFour) 1 10 ≠ Except.ok (projectionSpec twoDoneTeam oneTaskOfFour 1 10) := by
  have h1 : calculateProjection (some { teams := [twoDoneTeam], completionRates := [] })
      (some oneTaskOfFour) 1 10 = Except.ok (JSNum.fin 10) := by
    simp [calculateProjection, twoDoneTeam, oneTaskOfFour, tasksOfTeam, JSNum.div,
      JSNum.orElse, JSNum.truthy]
    norm_num
  have h2 : projectionSpec twoDoneTeam oneTaskOfFour 1 10 = JSNum.fin 20 := by
    simp [projectionSpec, twoDoneTeam, oneTaskOfFour, tasksOfTeam, JSNum.div]
    norm_num
  refine ⟨h1, h2, ?_⟩
  rw [h1, h2]
  intro h
  injection h with h
  injection h with h
  norm_num at h

/-- C8 (amended): for a team record with `workDays > 0` and `completedTasks > 0` and a
detail list in which the entries assigned to the team are as many as the record's
`completedTasks` and their complexities do not sum to `0`, `calculateProjection` returns
`targetTasks / ((completedTasks / workDays) / averageComplexity)` with `averageComplexity`
the mean complexity of those entries. -/
theorem C8_projection_of_consistent_detail (tp : ClientTeamPerformance) (stats : TaskStats)
    (team : TeamRecord) (teamId : Nat) (targetTasks : ℚ)
    (hteam : tp.teams.find? (fun t => decide (t.id = teamId)) = some team)
    (hdays : 0 < team.workDays) (hdone : 0 < team.completedTasks)
    (hcount : ((tasksOfTeam stats teamId).length : ℚ) = team.completedTasks)
    (hsum : ((tasksOfTeam stats teamId).map (fun task => task.complexity)).sum ≠ 0) :
    calculateProjection (some tp) (some stats) teamId targetTasks
      = Except.ok (projectionSpec team stats teamId targetTasks) := by
  have hd : team.workDays ≠ 0 := ne_of_gt hdays
  have hc : team.completedTasks ≠ 0 := ne_of_gt hdone
  have hq : ((tasksOfTeam stats teamId).map (fun task => task.complexity)).sum
      / team.completedTasks ≠ 0 := div_ne_zero hsum hc
  simp only [calculateProjection, hteam, if_neg hd, projectionSpec, foldl_add_eq_sum,
    zero_add, hcount, JSNum.div_fin_of_ne _ _ hc, JSNum.orElse, JSNum.truthy,
    decide_eq_true_eq.mpr hq, if_true]

theorem priorityWeight_eq_spec (p : Option Priority) : priorityWeight p = priorityWeightSpec p := by
  cases p with
  | none => rfl
  | some q => cases q <;> rfl

/-- C9 (counterexample): with `totalWorkHours = 1/2` the code divides the weighted sum `1`
by `1/2` and returns `2`, while the claimed divisor `max(1/2, 1)` gives `1`. -/
theorem C9_counterexample :
    calculateTeamEfficiency (some { teams := [halfHourTeam], completionRates := [] })
        (some oneLowTask) 1 = JSNum.fin 2
    ∧ efficiencySpec halfHourTeam oneLowTask 1 = JSNum.fin 1
    ∧ calculateTeamEfficiency (some { teams := [halfHourTeam], completionRates := [] })
        (some oneLowTask) 1 ≠ efficiencySpec halfHourTeam oneLowTask 1 := by
  have h1 : calculateTeamEfficiency (some { teams := [halfHourTeam], completionRates := [] })
      (some oneLowTask) 1 = JSNum.fin 2 := by
    simp [calculateTeamEfficiency, halfHourTeam, oneLowTask, tasksOfTeam, priorityWeight,
      JSNum.div, JSNum.orElse, JSNum.truthy]
  have h2 : efficiencySpec halfHourTeam oneLowTask 1 = JSNum.fin 1 := by
    simp [efficiencySpec, halfHourTeam, oneLowTask, tasksOfTeam, priorityWeightSpec,
      JSNum.div, JSNum.max]
    norm_num
  refine ⟨h1, h2, ?_⟩
  rw [h1, h2]
  intro h
  injection h with h
  norm_num at h

/-- C9 (amended): for a team record whose `totalWorkHours` is `0` or at least `1` (every
whole number of hours, which is what the server sends) and every detail list,
`calculateTeamEfficiency` is the weighted sum over the team's entries divided by
`max(totalWorkHours, 1)`. -/
theorem C9_efficiency_of_whole_hours (tp : ClientTeamPerformance) (stats : TaskStats)
    (team : TeamRecord) (teamId : Nat)
    (hteam : tp.teams.find? (fun t => decide (t.id = teamId)) = some team)
    (hhours : team.totalWorkHours = 0 ∨ 1 ≤ team.totalWorkHours) :
    calculateTeamEfficiency (some tp) (some stats) teamId = efficiencySpec team stats teamId := by
  have hden : JSNum.orElse (JSNum.fin team.totalWorkHours) (JSNum.fin 1)
      = JSNum.max (JSNum.fin team.totalWorkHours) (JSNum.fin 1) := by
    rcases hhours with h0 | h1
    · simp [JSNum.orElse, JSNum.truthy, JSNum.max, h0]
    · have hne : team.totalWorkHours ≠ 0 := by linarith
      have hle : ¬ team.totalWorkHours ≤ 1 ∨ team.totalWorkHours = 1 := by
        rcases eq_or_lt_of_le h1 with h | h
        · exact Or.inr h.symm
        · exact Or.inl (not_le.mpr h)
      rcases hle with h | h
      · simp [JSNum.orElse, JSNum.truthy, JSNum.max, hne, h]
      · simp [JSNum.orElse, JSNum.truthy, JSNum.max, h]
  simp only [calculateTeamEfficiency, hteam, efficiencySpec, foldl_add_eq_sum, zero_add, hden,
    priorityWeight_eq_spec]

theorem C9_efficiency_of_whole_hours_witness :
    calculateTeamEfficiency
        (some { teams := [{ id := 1, name := "a", assignedTasks := 1, completedTasks := 1,
                            totalWorkHours := 0, workDays := 1 }], completionRates := [] })
        (some oneLowTask) 1
      = efficiencySpec { id := 1, name := "a", assignedTasks := 1, completedTasks := 1,
                         totalWorkHours := 0, workDays := 1 } oneLowTask 1 :=
  C9_efficiency_of_whole_hours _ oneLowTask _ 1 (by simp) (Or.inl rfl)

/-- C10 (the code at the failing input): a team with `assignedTasks = 3` and
`completedTasks = 3`, and two cancelled tasks in the store-wide status breakdown: the
provider divides `3` by `3 - 2` and derives the completion rate `3`, above `1`. -/
theorem C10_completionRate_above_one :
    (processTeamData [{ id := 1, name := "a", assignedTasks := 3, completedTasks := 3,
                        totalWorkHours := 8, workDays := 2 }]
        { statusBreakdown := [(Status.completed, 3), (Status.cancelled, 2)],
          completedTasks := [] }).completionRates.map (fun r => r.completionRate)
      = [JSNum.fin 3] := by
  simp [processTeamData, clientCompletionRate, cancelledCount, JSNum.div]
  norm_num

/-- C19: on a task-statistics payload as `getTaskStatistics` produces it, whose entries
carry no `assigneeId`, `calculateTeamEfficiency` is `0` for every team id, whatever the
team data, the complexities, the priorities and the work hours. -/
theorem C19_efficiency_zero_end_to_end (startDate endDate : Int) (tasks : List Task)
    (teamPerformance : Option ClientTeamPerformance) (teamId : Nat) :
    calculateTeamEfficiency teamPerformance
      (some (TaskStats.ofResponse (getTaskStatistics startDate endDate tasks))) teamId
      = JSNum.fin 0 := by
  have hnone : tasksOfTeam (TaskStats.ofResponse (getTaskStatistics startDate endDate tasks))
      teamId = [] := by
    simp [tasksOfTeam, TaskStats.ofResponse, StatTask.ofResponse, List.filter_eq_nil_iff]
  cases teamPerformance with
  | none => rfl
  | some tp =>
    simp only [calculateTeamEfficiency, hnone, List.foldl_nil]
    cases hfind : tp.teams.find? (fun t => decide (t.id = teamId)) with
    | none => rfl
    | some team =>
      simp only
      by_cases h : team.totalWorkHours = 0
      · simp [JSNum.orElse, JSNum.truthy, JSNum.div, h]
      · simp [JSNum.orElse, JSNum.truthy, JSNum.div, h]

/-! ## Cache keys -/

theorem digitChar_cases {c : Char} {d : Nat} (hd : d < 10) (hc : c = Char.ofNat (48 + d)) :
    c ≠ '_' ∧ c ≠ '-' ∧ c.toNat = 48 + d := by
  subst hc
  interval_cases d <;> decide

theorem mem_natDigits {n : Nat} {c : Char} (hc : c ∈ natDigits n) :
    ∃ d, d < 10 ∧ c = Char.ofNat (48 + d) := by
  simp only [natDigits, List.mem_reverse, List.mem_map] at hc
  obtain ⟨d, hd, rfl⟩ := hc
  exact ⟨d, Nat.digits_lt_base (by norm_num) hd, rfl⟩

theorem map_toNat_natDigits (n : Nat) :
    (natDigits n).reverse.map Char.toNat = (Nat.digits 10 n).map (fun d => 48 + d) := by
  simp only [natDigits, List.reverse_reverse, List.map_map]
  apply List.map_congr_left
  intro d hd
  exact (digitChar_cases (Nat.digits_lt_base (by norm_num) hd) rfl).2.2

theorem natDigits_injective {a b : Nat} (h : natDigits a = natDigits b) : a = b := by
  have hmap := map_toNat_natDigits a
  rw [h, map_toNat_natDigits b] at hmap
  have hinj : Function.Injective (fun d : Nat => 48 + d) := fun x y hxy => by
    simpa using hxy
  exact Nat.digits_inj_iff.mp ((List.map_injective_iff.mpr hinj) hmap.symm)

theorem natDigits_succ_ne_zero (m : Nat) : natDigits (m + 1) ≠ ['0'] := by
  intro h
  have hmap := map_toNat_natDigits (m + 1)
  rw [h] at hmap
  have hne : Nat.digits 10 (m + 1) ≠ [] := Nat.digits_ne_nil_iff_ne_zero.mpr (by omega)
  have hof := Nat.ofDigits_digits 10 (m + 1)
  cases hd : Nat.digits 10 (m + 1) with
  | nil => exact hne hd
  | cons d ds =>
    rw [hd] at hmap
    cases ds with
    | nil =>
      simp only [List.reverse_cons, List.reverse_nil, List.nil_append, List.map_cons,
        List.map_nil, List.cons.injEq, and_true] at hmap
      have hd0 : d = 0 := by
        have : ('0' : Char).toNat = 48 := by decide
        omega
      rw [hd, hd0] at hof
      simp at hof
    | cons e es => simp at hmap

theorem numToString_injective {a b : Int} (h : numToString a = numToString b) : a = b := by
  have hdash : ∀ n, '-' ∉ natDigits n := fun n hc => by
    obtain ⟨d, hd, hcd⟩ := mem_natDigits hc
    exact (digitChar_cases hd hcd).2.1 rfl
  have hdata := congrArg String.data h
  match a, b with
  | Int.ofNat 0, Int.ofNat 0 => rfl
  | Int.ofNat 0, Int.ofNat (m + 1) =>
    exact absurd hdata.symm (natDigits_succ_ne_zero m)
  | Int.ofNat 0, Int.negSucc m =>
    simp [numToString] at hdata
  | Int.ofNat (m + 1), Int.ofNat 0 =>
    exact absurd hdata (natDigits_succ_ne_zero m)
  | Int.ofNat (m + 1), Int.ofNat (k + 1) =>
    have := natDigits_injective (a := m + 1) (b := k + 1) hdata
    rw [this]
  | Int.ofNat (m + 1), Int.negSucc k =>
    exfalso
    apply hdash (m + 1)
    change natDigits (m + 1) = '-' :: natDigits (k + 1) at hdata
    rw [hdata]
    exact List.mem_cons_self _ _
  | Int.negSucc m, Int.ofNat 0 =>
    simp [numToString] at hdata
  | Int.negSucc m, Int.ofNat (k + 1) =>
    exfalso
    apply hdash (k + 1)
    change '-' :: natDigits (m + 1) = natDigits (k + 1) at hdata
    rw [← hdata]
    exact List.mem_cons_self _ _
  | Int.negSucc m, Int.negSucc k =>
    change '-' :: natDigits (m + 1) = '-' :: natDigits (k + 1) at hdata
    have := natDigits_injective (List.cons.inj hdata).2
    have hmk : m = k := by omega
    rw [hmk]

theorem underscore_not_mem_numToString (n : Int) : '_' ∉ (numToString n).data := by
  have hdig : ∀ k, '_' ∉ natDigits k := fun k hc => by
    obtain ⟨d, hd, hcd⟩ := mem_natDigits hc
    exact (digitChar_cases hd hcd).1 rfl
  match n with
  | Int.ofNat 0 => decide
  | Int.ofNat (m + 1) => exact hdig (m + 1)
  | Int.negSucc m =>
    change '_' ∉ '-' :: natDigits (m + 1)
    simp only [List.mem_cons, not_or]
    exact ⟨by decide, hdig (m + 1)⟩

theorem split_at_first {c : Char} : ∀ {x x' y y' : List Char}, c ∉ x → c ∉ x' →
    x ++ c :: y = x' ++ c :: y' → x = x' ∧ y = y'
  | [], [], _, _, _, _, h => ⟨rfl, (List.cons.inj h).2⟩
  | [], d :: x', _, _, _, hx', h => by
    have := (List.cons.inj h).1
    exact absurd (this ▸ List.mem_cons_self _ _) hx'
  | d :: x, [], _, _, hx, _, h => by
    have := (List.cons.inj h).1
    exact absurd (this ▸ List.mem_cons_self _ _) hx
  | d :: x, e :: x', y, y', hx, hx', h => by
    obtain ⟨hde, hrest⟩ := List.cons.inj h
    obtain ⟨h1, h2⟩ := split_at_first (fun hc => hx (List.mem_cons_of_mem _ hc))
      (fun hc => hx' (List.mem_cons_of_mem _ hc)) hrest
    exact ⟨by rw [hde, h1], h2⟩

theorem split_at_last {c : Char} {x x' y y' : List Char} (hy : c ∉ y) (hy' : c ∉ y')
    (h : x ++ c :: y = x' ++ c :: y') : x = x' ∧ y = y' := by
  have hr := congrArg List.reverse h
  simp only [List.reverse_append, List.reverse_cons, List.append_assoc, List.singleton_append]
    at hr
  obtain ⟨h1, h2⟩ := split_at_first (c := c) (by simpa using hy) (by simpa using hy') hr
  exact ⟨List.reverse_injective h2, List.reverse_injective h1⟩

theorem cacheKey_data (filtersJson : String) (page pageSize : Int) :
    (cacheKey filtersJson page pageSize).data
      = ((CACHE_PREFIX.data ++ filtersJson.data) ++ '_' :: (numToString page).data)
          ++ '_' :: (numToString pageSize).data := by
  simp [cacheKey, String.data_append]

theorem cacheKey_injective {f1 f2 : String} {p1 p2 s1 s2 : Int}
    (h : cacheKey f1 p1 s1 = cacheKey f2 p2 s2) : f1 = f2 ∧ p1 = p2 ∧ s1 = s2 := by
  have hd := congrArg String.data h
  rw [cacheKey_data, cacheKey_data] at hd
  obtain ⟨hrest, hs⟩ := split_at_last (underscore_not_mem_numToString s1)
    (underscore_not_mem_numToString s2) hd
  obtain ⟨hf, hp⟩ := split_at_last (underscore_not_mem_numToString p1)
    (underscore_not_mem_numToString p2) hrest
  refine ⟨String.ext (List.append_cancel_left hf), ?_, ?_⟩
  · exact numToString_injective (String.ext hp)
  · exact numToString_injective (String.ext hs)

/-- C18: the cache key determines the text of the filters, the page and the page size:
two keys are equal exactly when all three agree, whatever underscores or digits the text of
the filters contains. -/
theorem C18_cacheKey_collision_free (f1 f2 : String) (p1 p2 s1 s2 : Int) :
    cacheKey f1 p1 s1 = cacheKey f2 p2 s2 ↔ f1 = f2 ∧ p1 = p2 ∧ s1 = s2 :=
  ⟨cacheKey_injective, fun ⟨hf, hp, hs⟩ => by rw [hf, hp, hs]⟩

theorem getCacheKey_ne_of_field_order (page pageSize : Int) :
    getCacheKey { filters := filtersProjectFirst, pageSize := pageSize } page
      ≠ getCacheKey { filters := filtersUserFirst, pageSize := pageSize } page := by
  intro h
  have hs : (stringifyFilters filtersProjectFirst).data[2]?
      = (stringifyFilters filtersUserFirst).data[2]? :=
    congrArg (fun s => s.data[2]?) (cacheKey_injective h).1
  exact absurd hs (by decide)

/-- C11 (counterexample): the filters `{ projectId: 1, userId: 2 }` and
`{ userId: 2, projectId: 1 }` hold the same fields with the same values, yet for page `1`
and ten tasks to the page their cache keys differ. -/
theorem C11_counterexample :
    getCacheKey { filters := filtersProjectFirst, pageSize := 10 } 1
      ≠ getCacheKey { filters := filtersUserFirst, pageSize := 10 } 1 :=
  getCacheKey_ne_of_field_order 1 10

/-- C11 (amended): for every two filter objects, every page and every page size,
`getCacheKey` yields the same key exactly when `JSON.stringify` prints the same text for
both objects, as it does when they list the same fields with the same values in the same
order. -/
theorem C11_key_same_iff_same_text (filters1 filters2 : Filters) (page pageSize : Int) :
    getCacheKey { filters := filters1, pageSize := pageSize } page
        = getCacheKey { filters := filters2, pageSize := pageSize } page
      ↔ stringifyFilters filters1 = stringifyFilters filters2 :=
  ⟨fun h => (cacheKey_injective h).1, fun h => by simp only [getCacheKey, h]⟩

/-! ## The paged cache -/

theorem getFromCache_entry_fin (h : Hook) (now t0 : Int) (store : Storage) (page : Int)
    (data : JSValue)
    (hstore : store (getCacheKey h page) = some (StoredText.entry data (JSNum.fin t0))) :
    getFromCache h now store page
      = if now - t0 < CACHE_EXPIRY then (Except.ok data, store)
        else (Except.ok (some JVal.null), store.removeItem (getCacheKey h page)) := by
  simp only [getFromCache, hstore, JSNum.sub, JSNum.lt]
  by_cases hlt : now - t0 < CACHE_EXPIRY
  · have : ((now : ℚ) - (t0 : ℚ) < (CACHE_EXPIRY : ℚ)) := by exact_mod_cast hlt
    simp [hlt, this]
  · have : ¬ ((now : ℚ) - (t0 : ℚ) < (CACHE_EXPIRY : ℚ)) := by exact_mod_cast hlt
    simp [hlt, this]

theorem setCache_at_key (h : Hook) (now : Int) (store : Storage) (page : Int) (data : JVal) :
    setCache h now store page data (getCacheKey h page)
      = some (StoredText.entry (some data) (JSNum.fin now)) := by
  simp [setCache, Storage.setItem]

/-- C2: a payload stored by `setCache` at `t0` is returned unchanged by `getFromCache` on
the same page at any instant `t1` less than five minutes after `t0`, from every storage
that still holds what `setCache` wrote under that key; the storage is left as it is. -/
theorem C2_cache_round_trip (h : Hook) (store later : Storage) (page : Int) (v : JVal)
    (t0 t1 : Int)
    (hkept : later (getCacheKey h page) = setCache h t0 store page v (getCacheKey h page))
    (hfresh : t1 - t0 < CACHE_EXPIRY) :
    getFromCache h t1 later page = (Except.ok (some v), later) := by
  rw [setCache_at_key] at hkept
  rw [getFromCache_entry_fin h t1 t0 later page (some v) hkept, if_pos hfresh]

/-- C3: reading at `t1` an entry that `setCache` wrote at `t0` is a hit that leaves the
storage unchanged when `t1 - t0 < CACHE_EXPIRY`; otherwise, also when the age is exactly
`CACHE_EXPIRY = 300000`, it is a miss (`null`) after which the key is no longer stored. -/
theorem C3_ttl_expiry (h : Hook) (store : Storage) (page : Int) (v : JVal) (t0 t1 : Int) :
    CACHE_EXPIRY = 300000
    ∧ getFromCache h t1 (setCache h t0 store page v) page
      = (if t1 - t0 < CACHE_EXPIRY then (Except.ok (some v), setCache h t0 store page v)
         else (Except.ok (some JVal.null),
               (setCache h t0 store page v).removeItem (getCacheKey h page)))
    ∧ ((setCache h t0 store page v).removeItem (getCacheKey h page)) (getCacheKey h page)
      = none := by
  refine ⟨by decide, ?_, by simp [Storage.removeItem]⟩
  exact getFromCache_entry_fin h t1 t0 _ page (some v) (setCache_at_key h t0 store page v)

theorem nextPage_inv (s : Paging) (h1 : 1 ≤ s.page) (h2 : s.page ≤ s.totalPages) :
    (nextPage s).totalPages = s.totalPages ∧ 1 ≤ (nextPage s).page
      ∧ (nextPage s).page ≤ s.totalPages := by
  unfold nextPage
  split
  · exact ⟨rfl, by simp only; omega, by simp only; omega⟩
  · exact ⟨rfl, h1, h2⟩

theorem prevPage_inv (s : Paging) (h1 : 1 ≤ s.page) (h2 : s.page ≤ s.totalPages) :
    (prevPage s).totalPages = s.totalPages ∧ 1 ≤ (prevPage s).page
      ∧ (prevPage s).page ≤ s.totalPages := by
  unfold prevPage
  split
  · exact ⟨rfl, by simp only; omega, by simp only; omega⟩
  · exact ⟨rfl, h1, h2⟩

theorem runPaging_inv (steps : List PageAction) : ∀ (s : Paging), 1 ≤ s.page →
    s.page ≤ s.totalPages →
    (runPaging steps s).totalPages = s.totalPages ∧ 1 ≤ (runPaging steps s).page
      ∧ (runPaging steps s).page ≤ s.totalPages := by
  induction steps with
  | nil => intro s h1 h2; exact ⟨rfl, h1, h2⟩
  | cons a rest ih =>
    intro s h1 h2
    have hstep : (a.apply s).totalPages = s.totalPages ∧ 1 ≤ (a.apply s).page
        ∧ (a.apply s).page ≤ s.totalPages := by
      cases a
      · exact nextPage_inv s h1 h2
      · exact prevPage_inv s h1 h2
    have := ih (a.apply s) hstep.2.1 (by rw [hstep.1]; exact hstep.2.2)
    rw [hstep.1] at this
    exact this

/-- C16: with `1 ≤ page ≤ totalPages`, `nextPage` moves to `page + 1` unless
`page = totalPages` and `prevPage` moves to `page - 1` unless `page = 1`, both keeping
`totalPages` and leaving the page within `[1, totalPages]`; hence every sequence of the
two, started on page `1`, stays within `[1, totalPages]`. -/
theorem C16_pagination_bounds (totalPages : Int) (htotal : 1 ≤ totalPages) :
    (∀ page, 1 ≤ page → page ≤ totalPages →
      nextPage { page := page, totalPages := totalPages }
        = { page := if page = totalPages then page else page + 1, totalPages := totalPages }
      ∧ prevPage { page := page, totalPages := totalPages }
        = { page := if page = 1 then page else page - 1, totalPages := totalPages }
      ∧ 1 ≤ (nextPage { page := page, totalPages := totalPages }).page
      ∧ (nextPage { page := page, totalPages := totalPages }).page ≤ totalPages
      ∧ 1 ≤ (prevPage { page := page, totalPages := totalPages }).page
      ∧ (prevPage { page := page, totalPages := totalPages }).page ≤ totalPages)
    ∧ ∀ steps : List PageAction,
        (runPaging steps { page := 1, totalPages := totalPages }).totalPages = totalPages
        ∧ 1 ≤ (runPaging steps { page := 1, totalPages := totalPages }).page
        ∧ (runPaging steps { page := 1, totalPages := totalPages }).page ≤ totalPages := by
  constructor
  · intro page h1 h2
    have hn := nextPage_inv { page := page, totalPages := totalPages } h1 h2
    have hp := prevPage_inv { page := page, totalPages := totalPages } h1 h2
    refine ⟨?_, ?_, hn.2.1, hn.2.2, hp.2.1, hp.2.2⟩
    · by_cases h : page = totalPages
      · simp [nextPage, h]
      · have : page < totalPages := lt_of_le_of_ne h2 h
        simp [nextPage, h, this]
    · by_cases h : page = 1
      · simp [prevPage, h]
      · have : 1 < page := lt_of_le_of_ne h1 (Ne.symm h)
        simp [prevPage, h, this]
  · intro steps
    exact runPaging_inv steps { page := 1, totalPages := totalPages } (le_refl 1) htotal

theorem C16_pagination_bounds_witness :
    (1 : Int) ≤ 3
    ∧ (runPaging [PageAction.next, PageAction.next, PageAction.next, PageAction.prev]
        { page := 1, totalPages := 3 }).page ≤ 3 :=
  ⟨by decide, ((C16_pagination_bounds 3 (by decide)).2 _).2.2⟩

theorem lookup_cons_ite (name k : String) (v : JVal) (rest : List (String × JVal)) :
    ((k, v) :: rest).lookup name = if name = k then some v else rest.lookup name := by
  by_cases hn : name = k
  · subst hn
    simp [List.lookup]
  · have hb : (name == k) = false := by simpa using hn
    simp [List.lookup, hb, hn]

theorem lookup_setProp (props : List (String × JVal)) (k name : String) (v : JVal) :
    (setProp props k v).lookup name = if name = k then some v else props.lookup name := by
  induction props with
  | nil =>
    by_cases hn : name = k
    · simp [setProp, lookup_cons_ite, hn]
    · simp [setProp, lookup_cons_ite, hn]
  | cons p rest ih =>
    obtain ⟨k', w⟩ := p
    by_cases hk : k' = k
    · by_cases hn : name = k
      · simp [setProp, lookup_cons_ite, hk, hn]
      · simp [setProp, lookup_cons_ite, hk, hn]
    · by_cases hn : name = k'
      · have : ¬ name = k := fun h => hk (hn ▸ h)
        simp [setProp, lookup_cons_ite, hk, hn, this]
      · simp [setProp, lookup_cons_ite, hk, hn, ih]

theorem setProp_of_lookup (props : List (String × JVal)) (k : String) (v : JVal)
    (hv : props.lookup k = some v) : setProp props k v = props := by
  induction props with
  | nil => simp [lookup_cons_ite] at hv
  | cons p rest ih =>
    obtain ⟨k', w⟩ := p
    by_cases hk : k' = k
    · subst hk
      simp [lookup_cons_ite] at hv
      simp [setProp, hv]
    · have hk' : ¬ k = k' := fun h => hk h.symm
      simp [lookup_cons_ite, hk'] at hv
      simp [setProp, hk, ih hv]

theorem lookup_append_singleton (l : List (String × JVal)) (k name : String) (v : JVal) :
    (l ++ [(k, v)]).lookup name
      = (l.lookup name).orElse (fun _ => if name = k then some v else none) := by
  induction l with
  | nil => by_cases hn : name = k <;> simp [lookup_cons_ite, hn]
  | cons p rest ih =>
    obtain ⟨k', w⟩ := p
    by_cases hn : name = k'
    · simp [lookup_cons_ite, hn]
    · simp [lookup_cons_ite, hn, ih]

theorem lookup_objectSpread (a b : List (String × JVal)) (name : String) :
    (objectSpread a b).lookup name = (b.reverse.lookup name).orElse (fun _ => a.lookup name) := by
  unfold objectSpread
  induction b generalizing a with
  | nil => simp [lookup_cons_ite]
  | cons kv rest ih =>
    rw [List.foldl_cons, ih, lookup_setProp, List.reverse_cons, lookup_append_singleton]
    cases rest.reverse.lookup name with
    | some x => simp
    | none => by_cases hn : name = kv.1 <;> simp [hn]

theorem mapM_patchTask (taskId updatedTask : JVal) (tasks : List JVal)
    (hne : ∀ task ∈ tasks, task ≠ JVal.null) :
    tasks.mapM (patchTask taskId updatedTask)
      = Except.ok (patchedTasks taskId updatedTask tasks) := by
  induction tasks with
  | nil => rfl
  | cons t rest ih =>
    have hrest := ih (fun x hx => hne x (List.mem_cons_of_mem _ hx))
    have ht : patchTask taskId updatedTask t
        = Except.ok (if strictEq (t.prop "id") taskId then
            JVal.obj (objectSpread (ownProps t) (ownProps updatedTask)) else t) := by
      have := hne t (List.mem_cons_self _ _)
      cases t with
      | null => exact absurd rfl this
      | _ => simp only [patchTask]; split <;> rfl
    rw [List.mapM_cons, ht, hrest]
    rfl

theorem patchedTasks_of_absent (taskId updatedTask : JVal) (tasks : List JVal)
    (habsent : ∀ task ∈ tasks, strictEq (task.prop "id") taskId = false) :
    patchedTasks taskId updatedTask tasks = tasks := by
  unfold patchedTasks
  conv_rhs => rw [← List.map_id tasks]
  apply List.map_congr_left
  intro task ht
  simp [habsent task ht]

theorem updateTask_of_entry (h : Hook) (store : Storage) (page : Int)
    (taskId updatedTask : JVal) (props : List (String × JVal)) (tasks : List JVal)
    (t0 t : Int)
    (hentry : store (getCacheKey h page)
      = some (StoredText.entry (some (JVal.obj props)) (JSNum.fin t0)))
    (htasks : props.lookup "tasks" = some (JVal.arr tasks))
    (hne : ∀ task ∈ tasks, task ≠ JVal.null) :
    updateTask h t store page taskId (Except.ok updatedTask)
      = if t - t0 < CACHE_EXPIRY then
          (Except.ok (), setCache h t store page (JVal.obj
            (setProp props "tasks" (JVal.arr (patchedTasks taskId updatedTask tasks)))))
        else (Except.ok (), store.removeItem (getCacheKey h page)) := by
  unfold updateTask
  simp only
  rw [getFromCache_entry_fin h t t0 store page _ hentry]
  by_cases hfresh : t - t0 < CACHE_EXPIRY
  · simp only [if_pos hfresh, JVal.truthy, htasks, mapM_patchTask taskId updatedTask tasks hne,
      if_true]
  · simp only [if_neg hfresh, JVal.truthy]
    rfl

/-- C4: when the active page holds a fresh entry at the mutation instant `t` whose tasks are
objects, a successful `updateTask` re-writes the entry with timestamp `t`; a read at any
`t'` less than five minutes after `t` is a hit on the patched payload, in which every task
of id `taskId` is the merge of the old task with the updated one (a field of the updated
task wins), every other task and every other property, `totalPages` included, is unchanged. -/
theorem C4_mutation_patch (h : Hook) (store : Storage) (page : Int)
    (taskId updatedTask : JVal) (props : List (String × JVal)) (tasks : List JVal)
    (t0 t t' : Int)
    (hentry : store (getCacheKey h page)
      = some (StoredText.entry (some (JVal.obj props)) (JSNum.fin t0)))
    (hfresh : t - t0 < CACHE_EXPIRY)
    (htasks : props.lookup "tasks" = some (JVal.arr tasks))
    (hne : ∀ task ∈ tasks, task ≠ JVal.null)
    (hread : t' - t < CACHE_EXPIRY) :
    (updateTask h t store page taskId (Except.ok updatedTask)).1 = Except.ok ()
    ∧ (updateTask h t store page taskId (Except.ok updatedTask)).2 (getCacheKey h page)
      = some (StoredText.entry
          (some (JVal.obj (setProp props "tasks"
            (JVal.arr (patchedTasks taskId updatedTask tasks))))) (JSNum.fin t))
    ∧ getFromCache h t' (updateTask h t store page taskId (Except.ok updatedTask)).2 page
      = (Except.ok (some (JVal.obj (setProp props "tasks"
            (JVal.arr (patchedTasks taskId updatedTask tasks))))),
          (updateTask h t store page taskId (Except.ok updatedTask)).2)
    ∧ (setProp props "tasks" (JVal.arr (patchedTasks taskId updatedTask tasks))).lookup "tasks"
      = some (JVal.arr (patchedTasks taskId updatedTask tasks))
    ∧ (∀ name, name ≠ "tasks" →
        (setProp props "tasks" (JVal.arr (patchedTasks taskId updatedTask tasks))).lookup name
          = props.lookup name)
    ∧ (∀ task ∈ tasks, strictEq (task.prop "id") taskId = false →
        task ∈ patchedTasks taskId updatedTask tasks)
    ∧ (∀ task ∈ tasks, strictEq (task.prop "id") taskId = true →
        JVal.obj (objectSpread (ownProps task) (ownProps updatedTask))
          ∈ patchedTasks taskId updatedTask tasks)
    ∧ (patchedTasks taskId updatedTask tasks).length = tasks.length
    ∧ (∀ task name, (objectSpread (ownProps task) (ownProps updatedTask)).lookup name
        = ((ownProps updatedTask).reverse.lookup name).orElse
            (fun _ => (ownProps task).lookup name)) := by
  have hupd := updateTask_of_entry h store page taskId updatedTask props tasks t0 t hentry
    htasks hne
  rw [if_pos hfresh] at hupd
  rw [hupd]
  refine ⟨rfl, setCache_at_key _ _ _ _ _, ?_, ?_, ?_, ?_, ?_, ?_, ?_⟩
  · rw [getFromCache_entry_fin h t' t _ page _ (setCache_at_key _ _ _ _ _), if_pos hread]
  · rw [lookup_setProp, if_pos rfl]
  · intro name hname
    rw [lookup_setProp, if_neg hname]
  · intro task ht hid
    exact List.mem_map.mpr ⟨task, ht, by simp [hid]⟩
  · intro task ht hid
    exact List.mem_map.mpr ⟨task, ht, by simp [hid]⟩
  · simp [patchedTasks]
  · intro task name
    exact lookup_objectSpread _ _ _

theorem updateTask_of_absent (h : Hook) (store : Storage) (page : Int)
    (taskId updatedTask : JVal) (props : List (String × JVal)) (tasks : List JVal)
    (t0 t : Int)
    (hentry : store (getCacheKey h page)
      = some (StoredText.entry (some (JVal.obj props)) (JSNum.fin t0)))
    (htasks : props.lookup "tasks" = some (JVal.arr tasks))
    (hne : ∀ task ∈ tasks, task ≠ JVal.null)
    (habsent : ∀ task ∈ tasks, strictEq (task.prop "id") taskId = false) :
    updateTask h t store page taskId (Except.ok updatedTask)
      = if t - t0 < CACHE_EXPIRY then
          (Except.ok (), setCache h t store page (JVal.obj props))
        else (Except.ok (), store.removeItem (getCacheKey h page)) := by
  rw [updateTask_of_entry h store page taskId updatedTask props tasks t0 t hentry htasks hne,
    patchedTasks_of_absent taskId updatedTask tasks habsent, setProp_of_lookup props _ _ htasks]

theorem C2_cache_round_trip_witness :
    (1000 : Int) - 0 < CACHE_EXPIRY
    ∧ getFromCache sampleHook 1000 sampleStore 1
      = (Except.ok (some (JVal.obj sampleProps)), sampleStore) :=
  ⟨by decide,
    C2_cache_round_trip sampleHook (fun _ => none) sampleStore 1 (JVal.obj sampleProps) 0 1000
      rfl (by decide)⟩

theorem C4_mutation_patch_witness :
    ((1000 : Int) - 0 < CACHE_EXPIRY ∧ (2000 : Int) - 1000 < CACHE_EXPIRY)
    ∧ (updateTask sampleHook 1000 sampleStore 1 (JVal.num 1)
        (Except.ok (JVal.obj [("title", JVal.str "final")]))).1 = Except.ok ()
    ∧ (updateTask sampleHook 1000 sampleStore 1 (JVal.num 1)
        (Except.ok (JVal.obj [("title", JVal.str "final")]))).2 (getCacheKey sampleHook 1)
      = some (StoredText.entry
          (some (JVal.obj (setProp sampleProps "tasks"
            (JVal.arr (patchedTasks (JVal.num 1) (JVal.obj [("title", JVal.str "final")])
              [JVal.obj [("id", JVal.num 1), ("title", JVal.str "draft")]])))))
          (JSNum.fin 1000)) :=
  have hall := C4_mutation_patch sampleHook sampleStore 1 (JVal.num 1)
    (JVal.obj [("title", JVal.str "final")]) sampleProps
    [JVal.obj [("id", JVal.num 1), ("title", JVal.str "draft")]] 0 1000 2000
    (setCache_at_key sampleHook 0 (fun _ => none) 1 (JVal.obj sampleProps)) (by decide) rfl
    (by simp) (by decide)
  ⟨⟨by decide, by decide⟩, hall.1, hall.2.1⟩

theorem getFromCache_invalid (h : Hook) (now : Int) (store : Storage) (page : Int)
    (raw : String) (hraw : raw ≠ "")
    (hstore : store (getCacheKey h page) = some (StoredText.invalid raw)) :
    getFromCache h now store page = (Except.error JSError.syntaxError, store) := by
  simp [getFromCache, hstore, hraw]

theorem loadTasks_of_raise (h : Hook) (now later : Int) (store : Storage) (page : Int)
    (response : Except String FetchResponse) (e : JSError)
    (hget : getFromCache h now store page = (Except.error e, store)) :
    loadTasks h now later store page response
      = (LoadOutcome.failed (Failure.thrown e), store) := by
  simp only [loadTasks, hget]

theorem corruptStore_at_key :
    corruptStore (getCacheKey sampleHook 1) = some (StoredText.invalid "oops") := by
  simp [corruptStore, Storage.setItem]

/-- C12 (counterexample): with a text that is not JSON stored under the key of page `1`,
`getFromCache` raises a `SyntaxError` and leaves the entry in place, and `loadTasks` ends
in its `catch` branch without storing the response; no miss, no removal, no fetch. -/
theorem C12_counterexample :
    corruptStore (getCacheKey sampleHook 1) = some (StoredText.invalid "oops")
    ∧ getFromCache sampleHook 0 corruptStore 1
      = (Except.error JSError.syntaxError, corruptStore)
    ∧ loadTasks sampleHook 0 0 corruptStore 1 (Except.ok sampleResponse)
      = (LoadOutcome.failed (Failure.thrown JSError.syntaxError), corruptStore) :=
  ⟨corruptStore_at_key,
    getFromCache_invalid sampleHook 0 corruptStore 1 "oops" (by decide) corruptStore_at_key,
    loadTasks_of_raise sampleHook 0 0 corruptStore 1 _ _
      (getFromCache_invalid sampleHook 0 corruptStore 1 "oops" (by decide) corruptStore_at_key)⟩

/-- C12 (amended): a stored text that parses to a value other than `null` and has no
numeric timestamp is a miss: `getFromCache` returns `null`, removes the entry and does not
raise, and `loadTasks` goes on to fetch and store the response.  A stored text that is not
JSON (and not empty), or the text `null`, makes `getFromCache` raise with the entry left in
place, and `loadTasks` ends in its `catch` branch without fetching. -/
theorem C12_malformed_entry (h : Hook) (now later : Int) (store : Storage) (page : Int)
    (r : FetchResponse) :
    (∀ data, store (getCacheKey h page) = some (StoredText.entry data JSNum.nan) →
      getFromCache h now store page
        = (Except.ok (some JVal.null), store.removeItem (getCacheKey h page))
      ∧ loadTasks h now later store page (Except.ok r)
        = (LoadOutcome.fetched
            (JVal.obj [("tasks", r.tasks), ("totalPages", totalPagesOf r.total h.pageSize)]),
           setCache h later (store.removeItem (getCacheKey h page)) page
            (JVal.obj [("tasks", r.tasks), ("totalPages", totalPagesOf r.total h.pageSize)])))
    ∧ (∀ raw, raw ≠ "" → store (getCacheKey h page) = some (StoredText.invalid raw) →
      getFromCache h now store page = (Except.error JSError.syntaxError, store)
      ∧ loadTasks h now later store page (Except.ok r)
        = (LoadOutcome.failed (Failure.thrown JSError.syntaxError), store))
    ∧ (store (getCacheKey h page) = some StoredText.jsonNull →
      getFromCache h now store page = (Except.error JSError.typeError, store)
      ∧ loadTasks h now later store page (Except.ok r)
        = (LoadOutcome.failed (Failure.thrown JSError.typeError), store)) := by
  refine ⟨?_, ?_, ?_⟩
  · intro data hstore
    have hget : getFromCache h now store page
        = (Except.ok (some JVal.null), store.removeItem (getCacheKey h page)) := by
      simp [getFromCache, hstore, JSNum.sub, JSNum.lt]
    refine ⟨hget, ?_⟩
    simp only [loadTasks, hget, Option.filter, JVal.truthy]
    rfl
  · intro raw hraw hstore
    have hget := getFromCache_invalid h now store page raw hraw hstore
    exact ⟨hget, loadTasks_of_raise h now later store page _ _ hget⟩
  · intro hstore
    have hget : getFromCache h now store page = (Except.error JSError.typeError, store) := by
      simp [getFromCache, hstore]
    exact ⟨hget, loadTasks_of_raise h now later store page _ _ hget⟩

theorem C12_malformed_entry_witness :
    ("oops" ≠ "" ∧ corruptStore (getCacheKey sampleHook 1) = some (StoredText.invalid "oops"))
    ∧ loadTasks sampleHook 0 0 corruptStore 1 (Except.ok sampleResponse)
      = (LoadOutcome.failed (Failure.thrown JSError.syntaxError), corruptStore) :=
  ⟨⟨by decide, corruptStore_at_key⟩,
    ((C12_malformed_entry sampleHook 0 0 corruptStore 1 sampleResponse).2.1 "oops" (by decide)
      corruptStore_at_key).2⟩

/-- C13 (counterexample): the sample payload, stored at instant `0`, holds no task of id
`2`; after a successful `updateTask` for that id at instant `1000` the entry of the active
page carries the timestamp `1000`, so the storage is not what it was. -/
theorem C13_counterexample :
    sampleStore (getCacheKey sampleHook 1)
      = some (StoredText.entry (some (JVal.obj sampleProps)) (JSNum.fin 0))
    ∧ (updateTask sampleHook 1000 sampleStore 1 (JVal.num 2)
        (Except.ok (JVal.obj [("id", JVal.num 2)]))).2 (getCacheKey sampleHook 1)
      = some (StoredText.entry (some (JVal.obj sampleProps)) (JSNum.fin 1000))
    ∧ (updateTask sampleHook 1000 sampleStore 1 (JVal.num 2)
        (Except.ok (JVal.obj [("id", JVal.num 2)]))).2 ≠ sampleStore := by
  have h0 : sampleStore (getCacheKey sampleHook 1)
      = some (StoredText.entry (some (JVal.obj sampleProps)) (JSNum.fin 0)) :=
    setCache_at_key sampleHook 0 (fun _ => none) 1 (JVal.obj sampleProps)
  have hupd := updateTask_of_absent sampleHook sampleStore 1 (JVal.num 2)
    (JVal.obj [("id", JVal.num 2)]) sampleProps
    [JVal.obj [("id", JVal.num 1), ("title", JVal.str "draft")]] 0 1000 h0 rfl (by simp)
    (by simp [JVal.prop, strictEq, lookup_cons_ite])
  rw [if_pos (by decide)] at hupd
  have h1 : (updateTask sampleHook 1000 sampleStore 1 (JVal.num 2)
      (Except.ok (JVal.obj [("id", JVal.num 2)]))).2 (getCacheKey sampleHook 1)
      = some (StoredText.entry (some (JVal.obj sampleProps)) (JSNum.fin 1000)) := by
    rw [hupd]
    exact setCache_at_key _ _ _ _ _
  refine ⟨h0, h1, ?_⟩
  intro heq
  rw [heq, h0] at h1
  simp at h1

/-- C13 (amended): when the active page's entry holds tasks none of which has the id
`taskId`, a successful `updateTask` raises no error, leaves the entry of every other key as
it was and keeps the payload of the active page; that entry gets the mutation instant as
its timestamp when it was fresh, and is removed when it was stale. -/
theorem C13_absent_task_patch (h : Hook) (store : Storage) (page : Int)
    (taskId updatedTask : JVal) (props : List (String × JVal)) (tasks : List JVal)
    (t0 t : Int)
    (hentry : store (getCacheKey h page)
      = some (StoredText.entry (some (JVal.obj props)) (JSNum.fin t0)))
    (htasks : props.lookup "tasks" = some (JVal.arr tasks))
    (hne : ∀ task ∈ tasks, task ≠ JVal.null)
    (habsent : ∀ task ∈ tasks, strictEq (task.prop "id") taskId = false) :
    (updateTask h t store page taskId (Except.ok updatedTask)).1 = Except.ok ()
    ∧ (∀ key, key ≠ getCacheKey h page →
        (updateTask h t store page taskId (Except.ok updatedTask)).2 key = store key)
    ∧ (updateTask h t store page taskId (Except.ok updatedTask)).2 (getCacheKey h page)
      = if t - t0 < CACHE_EXPIRY then
          some (StoredText.entry (some (JVal.obj props)) (JSNum.fin t))
        else none := by
  rw [updateTask_of_absent h store page taskId updatedTask props tasks t0 t hentry htasks hne
    habsent]
  by_cases hfresh : t - t0 < CACHE_EXPIRY
  · simp only [if_pos hfresh]
    refine ⟨trivial, ?_, setCache_at_key _ _ _ _ _⟩
    intro key hkey
    simp [setCache, Storage.setItem, hkey]
  · simp only [if_neg hfresh]
    refine ⟨trivial, ?_, by simp [Storage.removeItem]⟩
    intro key hkey
    simp [Storage.removeItem, hkey]

theorem C13_absent_task_patch_witness :
    (updateTask sampleHook 1000 sampleStore 1 (JVal.num 2)
        (Except.ok (JVal.obj [("id", JVal.num 2)]))).1 = Except.ok () :=
  (C13_absent_task_patch sampleHook sampleStore 1 (JVal.num 2) (JVal.obj [("id", JVal.num 2)])
    sampleProps [JVal.obj [("id", JVal.num 1), ("title", JVal.str "draft")]] 0 1000
    (setCache_at_key sampleHook 0 (fun _ => none) 1 (JVal.obj sampleProps)) rfl (by simp)
    (by simp [JVal.prop, strictEq, lookup_cons_ite])).1

theorem scenarioA_teams_ne_nil :
    (getTeamPerformance (january2024 1) (january2024 8) (january2024 9) [⟨7, "U"⟩]
      (scenarioA 4 none)).teams ≠ [] := by
  simp [getTeamPerformance, buildTeamPerformance, findAllTeams]

theorem C5_totalWorkHours_nonneg_witness :
    january2024 1 ≤ january2024 8
    ∧ 0 ≤ ((getTeamPerformance (january2024 1) (january2024 8) (january2024 9) [⟨7, "U"⟩]
        (scenarioA 4 none)).teams.head scenarioA_teams_ne_nil).totalWorkHours :=
  ⟨by decide,
    C5_totalWorkHours_nonneg (january2024 1) (january2024 8) (january2024 9) [⟨7, "U"⟩]
      (scenarioA 4 none) (by decide) (by decide)
      (by simp [scenarioA])
      (by simp [scenarioA, january2024, msPerDay, msPerHour])
      (by simp [scenarioA, january2024, msPerDay, msPerHour])
      _ (List.head_mem scenarioA_teams_ne_nil)⟩

theorem C8_projection_of_consistent_detail_witness :
    calculateProjection (some { teams := [steadyTeam], completionRates := [] })
        (some oneLowTask) 1 10
      = Except.ok (projectionSpec steadyTeam oneLowTask 1 10) :=
  C8_projection_of_consistent_detail _ oneLowTask steadyTeam 1 10 (by simp [steadyTeam])
    (by norm_num [steadyTeam]) (by norm_num [steadyTeam])
    (by simp [tasksOfTeam, oneLowTask, steadyTeam]) (by simp [tasksOfTeam, oneLowTask])

theorem scenarioA_completed_ne_nil :
    (getTaskStatistics (january2024 1) (january2024 8) (scenarioA 4 none)).completedTasks
      ≠ [] := by
  simp [getTaskStatistics, scenarioA]

theorem C17_completionTime_rounds_hours_witness :
    ((getTaskStatistics (january2024 1) (january2024 8) (scenarioA 4 none)).completedTasks.head
        scenarioA_completed_ne_nil).completedAt = some (january2024 2)
    ∧ ∃ n : Int,
        ((getTaskStatistics (january2024 1) (january2024 8)
          (scenarioA 4 none)).completedTasks.head scenarioA_completed_ne_nil).completionTime
          = some n :=
  have hc : ((getTaskStatistics (january2024 1) (january2024 8)
      (scenarioA 4 none)).completedTasks.head scenarioA_completed_ne_nil).completedAt
      = some (january2024 2) := by
    simp [getTaskStatistics, scenarioA]
  ⟨hc,
    let ⟨n, hn, _⟩ := (C17_completionTime_rounds_hours (january2024 1) (january2024 8)
      (scenarioA 4 none) _ (List.head_mem scenarioA_completed_ne_nil)).1 _ hc
    ⟨n, hn⟩⟩

end NeuSort
